import Mathlib

/-!
Verification of an RV32I emulator core (decoder, executor, CPU state,
metrics, two-pass assembler) against its specification.

Shallow embedding conventions:
- Rust `u32` values are modelled as `Nat`, reduced `% 2^32` exactly where the
  Rust code wraps (`wrapping_add`, `<<`, byte extraction).
- Rust `i32` values are modelled as `Int`; `as i32` / `as u32` reinterpreting
  casts are `toI32` / `ofI32`.
- Fallible operations (`Result<_, String>`) are `Except String _`; a Rust
  panic (out-of-bounds slice index) is modelled as `Option.none` in the one
  assembler routine that can reach one.
- Memory is a byte function `Nat → Nat` (values kept below 256 by all
  writers), the register file a 32-element `List Nat`.
-/

deriving instance DecidableEq for Except

namespace RV32

/-! ## Machine-integer helpers -/

/-- Reinterpret the low 32 bits of a natural as a two's-complement signed
value (Rust `as i32` applied to a `u32`). -/
def toI32 (n : Nat) : Int :=
  if n % 2^32 < 2^31 then ((n % 2^32 : Nat) : Int) else ((n % 2^32 : Nat) : Int) - 2^32

/-- Bit pattern of a signed value as a `u32` (Rust `as u32` applied to an
`i32`). -/
def ofI32 (x : Int) : Nat := (Int.emod x (2^32)).toNat

/-- Arithmetic shift right of an `i32` (Rust `>>` on a signed operand):
floor division by the power of two. -/
def asr (x : Int) (k : Nat) : Int := Int.fdiv x (2^k)

/-- Source `decoder.rs::sign_extend`: `((val << shift) as i32) >> shift`
with `shift = 32 - bits`; the `u32` left shift wraps mod 2^32 and the right
shift is arithmetic. -/
def sign_extend (val bits : Nat) : Int :=
  asr (toI32 ((val <<< (32 - bits)) % 2^32)) (32 - bits)

/-- 32-bit wrapping addition (Rust `u32::wrapping_add`). -/
def wadd (a b : Nat) : Nat := (a + b) % 2^32

/-- 32-bit wrapping subtraction (Rust `u32::wrapping_sub`). -/
def wsub (a b : Nat) : Nat := (a % 2^32 + (2^32 - b % 2^32)) % 2^32

/-! ## Arithmetic characterisations of the bit operations -/

theorem testBit_mul_pow_add (a b n j : Nat) (hb : b < 2^n) :
    Nat.testBit (a * 2^n + b) j = if j < n then b.testBit j else a.testBit (j - n) := by
  rcases Nat.lt_or_ge j n with h | h
  · rw [if_pos h]
    rw [Nat.testBit_to_div_mod, Nat.testBit_to_div_mod]
    have e : a * 2^n + b = 2^j * (a * 2^(n - j)) + b := by
      rw [Nat.mul_comm (2^j), Nat.mul_assoc, ← Nat.pow_add,
        Nat.sub_add_cancel (Nat.le_of_lt h)]
    rw [e, Nat.mul_add_div (Nat.two_pow_pos j)]
    have e2 : a * 2^(n - j) = a * 2^(n - j - 1) * 2 := by
      rw [Nat.mul_assoc, ← Nat.pow_succ]
      congr 2
      omega
    rw [e2, decide_eq_decide]
    omega
  · rw [if_neg (Nat.not_lt.2 h)]
    rw [Nat.testBit_to_div_mod, Nat.testBit_to_div_mod]
    have e : (a * 2^n + b) / 2^j = a / 2^(j - n) := by
      rw [show (2:Nat)^j = 2^n * 2^(j-n) by
        rw [← Nat.pow_add, Nat.add_sub_cancel' h]]
      rw [← Nat.div_div_eq_div_mul]
      congr 1
      rw [Nat.mul_comm, Nat.mul_add_div (Nat.two_pow_pos n), Nat.div_eq_of_lt hb,
        Nat.add_zero]
    rw [e]

theorem mul_pow_lor_eq_add (n a b : Nat) (hb : b < 2^n) : a * 2^n ||| b = a * 2^n + b := by
  apply Nat.eq_of_testBit_eq
  intro j
  rw [testBit_mul_pow_add a b n j hb, ← Nat.shiftLeft_eq]
  rcases Nat.lt_or_ge j n with h | h
  · simp [Nat.testBit_or, Nat.testBit_shiftLeft, Nat.not_le.2 h, if_pos h]
  · have hbj : b.testBit j = false :=
      Nat.testBit_lt_two_pow (lt_of_lt_of_le hb (Nat.pow_le_pow_right (by norm_num) h))
    simp [Nat.testBit_or, Nat.testBit_shiftLeft, h, hbj, Nat.not_lt.2 h]

/-- Bitwise or of values occupying disjoint bit ranges is addition. -/
theorem lor_eq_add (n a b : Nat) (ha : a % 2^n = 0) (hb : b < 2^n) : a ||| b = a + b := by
  have e : a / 2^n * 2^n = a := Nat.div_mul_cancel (Nat.dvd_of_mod_eq_zero ha)
  rw [← e, mul_pow_lor_eq_add n _ b hb]

theorem and_mask_window (x a b : Nat) :
    x &&& ((2^a - 1) * 2^b) = x / 2^b % 2^a * 2^b := by
  apply Nat.eq_of_testBit_eq
  intro j
  rw [show (2^a - 1) * 2^b = (2^a - 1) <<< b from (Nat.shiftLeft_eq _ _).symm,
    show x / 2^b % 2^a * 2^b = (x / 2^b % 2^a) <<< b from (Nat.shiftLeft_eq _ _).symm,
    show x / 2^b = x >>> b from (Nat.shiftRight_eq_div_pow _ _).symm]
  rcases Nat.lt_or_ge j b with h | h
  · simp [Nat.testBit_and, Nat.testBit_shiftLeft, Nat.not_le.2 h]
  · simp [Nat.testBit_and, Nat.testBit_shiftLeft, h, Nat.testBit_mod_two_pow,
      Nat.testBit_shiftRight, Nat.add_sub_cancel' h, Bool.and_comm]

theorem and_1 (x : Nat) : x &&& 1 = x % 2 := Nat.and_one_is_mod x

theorem and_7 (x : Nat) : x &&& 7 = x % 8 := by
  have h := Nat.and_pow_two_sub_one_eq_mod x 3
  norm_num at h
  exact h

theorem and_15 (x : Nat) : x &&& 15 = x % 16 := by
  have h := Nat.and_pow_two_sub_one_eq_mod x 4
  norm_num at h
  exact h

theorem and_31 (x : Nat) : x &&& 31 = x % 32 := by
  have h := Nat.and_pow_two_sub_one_eq_mod x 5
  norm_num at h
  exact h

theorem and_63 (x : Nat) : x &&& 63 = x % 64 := by
  have h := Nat.and_pow_two_sub_one_eq_mod x 6
  norm_num at h
  exact h

theorem and_127 (x : Nat) : x &&& 127 = x % 128 := by
  have h := Nat.and_pow_two_sub_one_eq_mod x 7
  norm_num at h
  exact h

theorem and_255 (x : Nat) : x &&& 255 = x % 256 := by
  have h := Nat.and_pow_two_sub_one_eq_mod x 8
  norm_num at h
  exact h

theorem and_1023 (x : Nat) : x &&& 1023 = x % 1024 := by
  have h := Nat.and_pow_two_sub_one_eq_mod x 10
  norm_num at h
  exact h

theorem and_4095 (x : Nat) : x &&& 4095 = x % 4096 := by
  have h := Nat.and_pow_two_sub_one_eq_mod x 12
  norm_num at h
  exact h

theorem and_fffff (x : Nat) : x &&& 1048575 = x % 1048576 := by
  have h := Nat.and_pow_two_sub_one_eq_mod x 20
  norm_num at h
  exact h

/-- The mask `0xfffff000` (LUI/AUIPC immediate extraction). -/
theorem and_fffff000 (x : Nat) : x &&& 4294963200 = x / 4096 % 1048576 * 4096 := by
  have h := and_mask_window x 20 12
  norm_num at h
  exact h

/-- The mask `!1 = 0xfffffffe` (JALR target bit-0 clearing). -/
theorem and_fffffffe (x : Nat) : x &&& 4294967294 = x / 2 % 2147483648 * 2 := by
  have h := and_mask_window x 31 1
  norm_num at h
  exact h

theorem sign_extend_eq (val bits : Nat) (h1 : 0 < bits) (h2 : bits ≤ 32) :
    sign_extend val bits =
      if val % 2^bits < 2^(bits-1) then ((val % 2^bits : Nat) : Int)
      else ((val % 2^bits : Nat) : Int) - 2^bits := by
  unfold sign_extend asr toI32
  have hk : (2:Int)^(32-bits) ≠ 0 := by positivity
  have hknn : (0:Int) ≤ 2^(32-bits) := by positivity
  have hsplit : (2:Nat)^32 = 2^bits * 2^(32-bits) := by
    rw [← Nat.pow_add]
    congr 1
    omega
  have hm : (val <<< (32 - bits)) % 2^32 = val % 2^bits * 2^(32-bits) := by
    rw [Nat.shiftLeft_eq, hsplit, Nat.mul_mod_mul_right]
  rw [hm]
  have hlt : val % 2^bits * 2^(32-bits) < 2^32 := by
    rw [hsplit]
    exact (Nat.mul_lt_mul_right (Nat.two_pow_pos _)).mpr (Nat.mod_lt _ (Nat.two_pow_pos _))
  rw [Nat.mod_eq_of_lt hlt]
  have hiff : val % 2^bits * 2^(32-bits) < 2^31 ↔ val % 2^bits < 2^(bits-1) := by
    have e31 : (2:Nat)^31 = 2^(bits-1) * 2^(32-bits) := by
      rw [← Nat.pow_add]
      congr 1
      omega
    rw [e31]
    exact Nat.mul_lt_mul_right (Nat.two_pow_pos _)
  by_cases hc : val % 2^bits < 2^(bits-1)
  · rw [if_pos (hiff.2 hc), if_pos hc]
    rw [Int.fdiv_eq_ediv _ hknn]
    push_cast
    exact Int.mul_ediv_cancel _ hk
  · rw [if_neg (fun h => hc (hiff.1 h)), if_neg hc]
    rw [Int.fdiv_eq_ediv _ hknn]
    have e : ((val % 2^bits * 2^(32-bits) : Nat) : Int) - 2^32 =
        (((val % 2^bits : Nat) : Int) - 2^bits) * 2^(32-bits) := by
      have ei2 : (4294967296:Int) = 2^bits * 2^(32-bits) := by
        rw [← pow_add, show bits + (32-bits) = 32 by omega]
        norm_num
      push_cast
      rw [ei2]
      ring
    rw [e, Int.mul_ediv_cancel _ hk]

/-! ## Decoder (`decoder.rs`) -/

/-- The closed operation enumeration of `decoder.rs::Opcode`. -/
inductive Opcode where
  | Add | Sub | And | Or | Xor | Sll | Srl | Sra
  | Addi | Andi | Ori | Xori | Slli | Srli | Srai
  | Lw | Jalr
  | Sw
  | Beq | Bne | Blt | Bge
  | Lui | Auipc
  | Jal
  | Unknown
  deriving DecidableEq, Repr

/-- Decoded instruction record (`decoder.rs::Instruction`). Register
indices are `usize` in the source, immediates `i32`. -/
structure Instruction where
  opcode : Opcode
  rd : Nat
  rs1 : Nat
  rs2 : Nat
  imm : Int
  deriving DecidableEq, Repr

/-- Source `decoder.rs::Instruction::decode`. The Rust `match` over literal
field values is rendered as an equality chain. -/
def Instruction.decode (raw : Nat) : Instruction :=
  let opcode_bits := raw &&& 0x7f
  let rd := (raw >>> 7) &&& 0x1f
  let funct3 := (raw >>> 12) &&& 0x7
  let rs1 := (raw >>> 15) &&& 0x1f
  let rs2 := (raw >>> 20) &&& 0x1f
  let funct7 := (raw >>> 25) &&& 0x7f
  if opcode_bits = 0x33 then
    let opcode :=
      if funct3 = 0x0 ∧ funct7 = 0x00 then Opcode.Add
      else if funct3 = 0x0 ∧ funct7 = 0x20 then Opcode.Sub
      else if funct3 = 0x7 ∧ funct7 = 0x00 then Opcode.And
      else if funct3 = 0x6 ∧ funct7 = 0x00 then Opcode.Or
      else if funct3 = 0x4 ∧ funct7 = 0x00 then Opcode.Xor
      else if funct3 = 0x1 ∧ funct7 = 0x00 then Opcode.Sll
      else if funct3 = 0x5 ∧ funct7 = 0x00 then Opcode.Srl
      else if funct3 = 0x5 ∧ funct7 = 0x20 then Opcode.Sra
      else Opcode.Unknown
    ⟨opcode, rd, rs1, rs2, 0⟩
  else if opcode_bits = 0x13 then
    let imm := sign_extend (raw >>> 20) 12
    let opcode :=
      if funct3 = 0x0 then Opcode.Addi
      else if funct3 = 0x7 then Opcode.Andi
      else if funct3 = 0x6 then Opcode.Ori
      else if funct3 = 0x4 then Opcode.Xori
      else if funct3 = 0x1 then Opcode.Slli
      else if funct3 = 0x5 then
        if funct7 = 0x00 then Opcode.Srli
        else if funct7 = 0x20 then Opcode.Srai
        else Opcode.Unknown
      else Opcode.Unknown
    ⟨opcode, rd, rs1, 0, imm⟩
  else if opcode_bits = 0x03 then
    let imm := sign_extend (raw >>> 20) 12
    ⟨Opcode.Lw, rd, rs1, 0, imm⟩
  else if opcode_bits = 0x23 then
    let imm_low := (raw >>> 7) &&& 0x1f
    let imm_high := (raw >>> 25) &&& 0x7f
    let imm := sign_extend ((imm_high <<< 5) ||| imm_low) 12
    ⟨Opcode.Sw, 0, rs1, rs2, imm⟩
  else if opcode_bits = 0x63 then
    let imm_11 := (raw >>> 7) &&& 0x1
    let imm_4_1 := (raw >>> 8) &&& 0xf
    let imm_10_5 := (raw >>> 25) &&& 0x3f
    let imm_12 := (raw >>> 31) &&& 0x1
    let immb := (imm_12 <<< 12) ||| (imm_11 <<< 11) ||| (imm_10_5 <<< 5) ||| (imm_4_1 <<< 1)
    let imm := sign_extend immb 13
    let opcode :=
      if funct3 = 0x0 then Opcode.Beq
      else if funct3 = 0x1 then Opcode.Bne
      else if funct3 = 0x4 then Opcode.Blt
      else if funct3 = 0x5 then Opcode.Bge
      else Opcode.Unknown
    ⟨opcode, 0, rs1, rs2, imm⟩
  else if opcode_bits = 0x37 then
    let imm := toI32 (raw &&& 0xfffff000)
    ⟨Opcode.Lui, rd, 0, 0, imm⟩
  else if opcode_bits = 0x17 then
    let imm := toI32 (raw &&& 0xfffff000)
    ⟨Opcode.Auipc, rd, 0, 0, imm⟩
  else if opcode_bits = 0x6f then
    let imm_19_12 := (raw >>> 12) &&& 0xff
    let imm_11 := (raw >>> 20) &&& 0x1
    let imm_10_1 := (raw >>> 21) &&& 0x3ff
    let imm_20 := (raw >>> 31) &&& 0x1
    let immj := (imm_20 <<< 20) ||| (imm_19_12 <<< 12) ||| (imm_11 <<< 11) ||| (imm_10_1 <<< 1)
    let imm := sign_extend immj 21
    ⟨Opcode.Jal, rd, 0, 0, imm⟩
  else if opcode_bits = 0x67 then
    let imm := sign_extend (raw >>> 20) 12
    ⟨Opcode.Jalr, rd, rs1, 0, imm⟩
  else
    ⟨Opcode.Unknown, 0, 0, 0, 0⟩

/-! ## Architectural state (`cpu.rs`) -/

def NREGS : Nat := 32

def MEM_SIZE : Nat := 1024 * 1024

/-- Source `cpu.rs::Cpu`. The register array `[u32; 32]` is a 32-element
list; the `Vec<u8>` memory is a byte function on addresses (writers keep
values below 256). -/
structure Cpu where
  regs : List Nat
  pc : Nat
  mem : Nat → Nat

def Cpu.new : Cpu := ⟨List.replicate NREGS 0, 0, fun _ => 0⟩

/-- Source `cpu.rs::Cpu::read_word`: little-endian assembly of four bytes
(`u32::from_le_bytes`); the Rust out-of-bounds panic is the error case. -/
def Cpu.read_word (c : Cpu) (addr : Nat) : Except String Nat :=
  if addr + 4 > MEM_SIZE then Except.error "memory access out of bounds"
  else Except.ok (c.mem addr + c.mem (addr+1) * 2^8 + c.mem (addr+2) * 2^16
    + c.mem (addr+3) * 2^24)

/-- Source `cpu.rs::Cpu::write_word`: stores `val.to_le_bytes()` at
`addr..addr+4`; the Rust out-of-bounds panic is the error case. -/
def Cpu.write_word (c : Cpu) (addr val : Nat) : Except String Cpu :=
  if addr + 4 > MEM_SIZE then Except.error "memory write out of bounds"
  else Except.ok { c with mem := (fun a =>
    if a = addr then val % 2^8
    else if a = addr + 1 then val / 2^8 % 2^8
    else if a = addr + 2 then val / 2^16 % 2^8
    else if a = addr + 3 then val / 2^24 % 2^8
    else c.mem a) }

/-- Source `cpu.rs::Cpu::write_reg`: writes to index 0 are silently
discarded. -/
def Cpu.write_reg (c : Cpu) (rd val : Nat) : Cpu :=
  if rd ≠ 0 then { c with regs := c.regs.set rd val } else c

/-- Source `cpu.rs::Cpu::read_reg` (indexing `self.regs[rs]`; callers pass
decoded indices below 32). -/
def Cpu.read_reg (c : Cpu) (rs : Nat) : Nat := c.regs.getD rs 0

/-- Source `cpu.rs::Cpu::reset`: zeroes registers and PC, leaves memory
untouched. -/
def Cpu.reset (c : Cpu) : Cpu := { c with regs := List.replicate NREGS 0, pc := 0 }

/-! ## Metrics (`metrics.rs`) -/

/-- Source `metrics.rs::Metrics`. The Rust `HashMap<String, u64>` keyed by
the Debug name of the opcode is a total count function on `Opcode` (the keys
are in bijection with the opcode enumeration; absent key = count 0). The
wall-clock `start_time` is outside the embedding. -/
structure Metrics where
  inst_count : Nat
  inst_mix : Opcode → Nat
  branch_taken : Nat
  branch_not_taken : Nat

def Metrics.new : Metrics := ⟨0, fun _ => 0, 0, 0⟩

/-- Source `metrics.rs::Metrics::record_instruction`. -/
def Metrics.record_instruction (m : Metrics) (inst : Instruction) : Metrics :=
  { m with
    inst_count := m.inst_count + 1,
    inst_mix := fun op => if op = inst.opcode then m.inst_mix op + 1 else m.inst_mix op }

/-- Source `metrics.rs::Metrics::record_branch`. -/
def Metrics.record_branch (m : Metrics) (taken : Bool) : Metrics :=
  if taken then { m with branch_taken := m.branch_taken + 1 }
  else { m with branch_not_taken := m.branch_not_taken + 1 }

/-! ## Executor (`executor.rs`) -/

/-- Combined mutable state of `Executor::step`'s three `&mut` arguments:
the executor's halt flag, the CPU, and the metrics sink. -/
structure EmuState where
  halted : Bool
  cpu : Cpu
  metrics : Metrics

/-- Source `executor.rs::Executor::step`. Returns the state after the call
together with the `Result<(), String>`; mutations made before an error
(e.g. metrics recording) are kept, as in Rust. Error strings elide the
formatted address/PC of the Rust messages. -/
def step (s : EmuState) : EmuState × Except String Unit :=
  if s.halted then (s, Except.error "cpu halted")
  else
    match s.cpu.read_word s.cpu.pc with
    | Except.error e => (s, Except.error e)
    | Except.ok raw =>
      let inst := Instruction.decode raw
      let m := s.metrics.record_instruction inst
      let cpu := s.cpu
      match inst.opcode with
      | Opcode.Add =>
        let rs1 := cpu.read_reg inst.rs1
        let rs2 := cpu.read_reg inst.rs2
        let c := cpu.write_reg inst.rd (wadd rs1 rs2)
        ({ s with cpu := { c with pc := wadd c.pc 4 }, metrics := m }, Except.ok ())
      | Opcode.Sub =>
        let rs1 := cpu.read_reg inst.rs1
        let rs2 := cpu.read_reg inst.rs2
        let c := cpu.write_reg inst.rd (wsub rs1 rs2)
        ({ s with cpu := { c with pc := wadd c.pc 4 }, metrics := m }, Except.ok ())
      | Opcode.And =>
        let rs1 := cpu.read_reg inst.rs1
        let rs2 := cpu.read_reg inst.rs2
        let c := cpu.write_reg inst.rd (rs1 &&& rs2)
        ({ s with cpu := { c with pc := wadd c.pc 4 }, metrics := m }, Except.ok ())
      | Opcode.Or =>
        let rs1 := cpu.read_reg inst.rs1
        let rs2 := cpu.read_reg inst.rs2
        let c := cpu.write_reg inst.rd (rs1 ||| rs2)
        ({ s with cpu := { c with pc := wadd c.pc 4 }, metrics := m }, Except.ok ())
      | Opcode.Xor =>
        let rs1 := cpu.read_reg inst.rs1
        let rs2 := cpu.read_reg inst.rs2
        let c := cpu.write_reg inst.rd (rs1 ^^^ rs2)
        ({ s with cpu := { c with pc := wadd c.pc 4 }, metrics := m }, Except.ok ())
      | Opcode.Sll =>
        let rs1 := cpu.read_reg inst.rs1
        let rs2 := cpu.read_reg inst.rs2
        let shamt := rs2 &&& 0x1f
        let c := cpu.write_reg inst.rd ((rs1 <<< shamt) % 2^32)
        ({ s with cpu := { c with pc := wadd c.pc 4 }, metrics := m }, Except.ok ())
      | Opcode.Srl =>
        let rs1 := cpu.read_reg inst.rs1
        let rs2 := cpu.read_reg inst.rs2
        let shamt := rs2 &&& 0x1f
        let c := cpu.write_reg inst.rd (rs1 >>> shamt)
        ({ s with cpu := { c with pc := wadd c.pc 4 }, metrics := m }, Except.ok ())
      | Opcode.Sra =>
        let rs1 := toI32 (cpu.read_reg inst.rs1)
        let rs2 := cpu.read_reg inst.rs2
        let shamt := rs2 &&& 0x1f
        let c := cpu.write_reg inst.rd (ofI32 (asr rs1 shamt))
        ({ s with cpu := { c with pc := wadd c.pc 4 }, metrics := m }, Except.ok ())
      | Opcode.Addi =>
        let rs1 := cpu.read_reg inst.rs1
        let c := cpu.write_reg inst.rd (wadd rs1 (ofI32 inst.imm))
        ({ s with cpu := { c with pc := wadd c.pc 4 }, metrics := m }, Except.ok ())
      | Opcode.Andi =>
        let rs1 := cpu.read_reg inst.rs1
        let c := cpu.write_reg inst.rd (rs1 &&& ofI32 inst.imm)
        ({ s with cpu := { c with pc := wadd c.pc 4 }, metrics := m }, Except.ok ())
      | Opcode.Ori =>
        let rs1 := cpu.read_reg inst.rs1
        let c := cpu.write_reg inst.rd (rs1 ||| ofI32 inst.imm)
        ({ s with cpu := { c with pc := wadd c.pc 4 }, metrics := m }, Except.ok ())
      | Opcode.Xori =>
        let rs1 := cpu.read_reg inst.rs1
        let c := cpu.write_reg inst.rd (rs1 ^^^ ofI32 inst.imm)
        ({ s with cpu := { c with pc := wadd c.pc 4 }, metrics := m }, Except.ok ())
      | Opcode.Slli =>
        let rs1 := cpu.read_reg inst.rs1
        let shamt := ofI32 inst.imm &&& 0x1f
        let c := cpu.write_reg inst.rd ((rs1 <<< shamt) % 2^32)
        ({ s with cpu := { c with pc := wadd c.pc 4 }, metrics := m }, Except.ok ())
      | Opcode.Srli =>
        let rs1 := cpu.read_reg inst.rs1
        let shamt := ofI32 inst.imm &&& 0x1f
        let c := cpu.write_reg inst.rd (rs1 >>> shamt)
        ({ s with cpu := { c with pc := wadd c.pc 4 }, metrics := m }, Except.ok ())
      | Opcode.Srai =>
        let rs1 := toI32 (cpu.read_reg inst.rs1)
        let shamt := ofI32 inst.imm &&& 0x1f
        let c := cpu.write_reg inst.rd (ofI32 (asr rs1 shamt))
        ({ s with cpu := { c with pc := wadd c.pc 4 }, metrics := m }, Except.ok ())
      | Opcode.Lw =>
        let rs1 := cpu.read_reg inst.rs1
        let addr := wadd rs1 (ofI32 inst.imm)
        match cpu.read_word addr with
        | Except.error e => ({ s with metrics := m }, Except.error e)
        | Except.ok val =>
          let c := cpu.write_reg inst.rd val
          ({ s with cpu := { c with pc := wadd c.pc 4 }, metrics := m }, Except.ok ())
      | Opcode.Sw =>
        let rs1 := cpu.read_reg inst.rs1
        let rs2 := cpu.read_reg inst.rs2
        let addr := wadd rs1 (ofI32 inst.imm)
        match cpu.write_word addr rs2 with
        | Except.error e => ({ s with metrics := m }, Except.error e)
        | Except.ok c =>
          ({ s with cpu := { c with pc := wadd c.pc 4 }, metrics := m }, Except.ok ())
      | Opcode.Beq =>
        let rs1 := cpu.read_reg inst.rs1
        let rs2 := cpu.read_reg inst.rs2
        if rs1 = rs2 then
          let c := { cpu with pc := wadd cpu.pc (ofI32 inst.imm) }
          ({ s with cpu := c, metrics := m.record_branch true }, Except.ok ())
        else
          let c := { cpu with pc := wadd cpu.pc 4 }
          ({ s with cpu := c, metrics := m.record_branch false }, Except.ok ())
      | Opcode.Bne =>
        let rs1 := cpu.read_reg inst.rs1
        let rs2 := cpu.read_reg inst.rs2
        if rs1 ≠ rs2 then
          let c := { cpu with pc := wadd cpu.pc (ofI32 inst.imm) }
          ({ s with cpu := c, metrics := m.record_branch true }, Except.ok ())
        else
          let c := { cpu with pc := wadd cpu.pc 4 }
          ({ s with cpu := c, metrics := m.record_branch false }, Except.ok ())
      | Opcode.Blt =>
        let rs1 := toI32 (cpu.read_reg inst.rs1)
        let rs2 := toI32 (cpu.read_reg inst.rs2)
        if rs1 < rs2 then
          let c := { cpu with pc := wadd cpu.pc (ofI32 inst.imm) }
          ({ s with cpu := c, metrics := m.record_branch true }, Except.ok ())
        else
          let c := { cpu with pc := wadd cpu.pc 4 }
          ({ s with cpu := c, metrics := m.record_branch false }, Except.ok ())
      | Opcode.Bge =>
        let rs1 := toI32 (cpu.read_reg inst.rs1)
        let rs2 := toI32 (cpu.read_reg inst.rs2)
        if rs1 ≥ rs2 then
          let c := { cpu with pc := wadd cpu.pc (ofI32 inst.imm) }
          ({ s with cpu := c, metrics := m.record_branch true }, Except.ok ())
        else
          let c := { cpu with pc := wadd cpu.pc 4 }
          ({ s with cpu := c, metrics := m.record_branch false }, Except.ok ())
      | Opcode.Lui =>
        let c := cpu.write_reg inst.rd (ofI32 inst.imm)
        ({ s with cpu := { c with pc := wadd c.pc 4 }, metrics := m }, Except.ok ())
      | Opcode.Auipc =>
        let val := wadd cpu.pc (ofI32 inst.imm)
        let c := cpu.write_reg inst.rd val
        ({ s with cpu := { c with pc := wadd c.pc 4 }, metrics := m }, Except.ok ())
      | Opcode.Jal =>
        let link := wadd cpu.pc 4
        let c := cpu.write_reg inst.rd link
        let c2 := { c with pc := wadd cpu.pc (ofI32 inst.imm) }
        ({ s with cpu := c2, metrics := m }, Except.ok ())
      | Opcode.Jalr =>
        let rs1 := cpu.read_reg inst.rs1
        let link := wadd cpu.pc 4
        let c := cpu.write_reg inst.rd link
        let c2 := { c with pc := wadd rs1 (ofI32 inst.imm) &&& 0xfffffffe }
        ({ s with cpu := c2, metrics := m }, Except.ok ())
      | Opcode.Unknown =>
        ({ s with metrics := m },
          Except.error ("unknown instruction at pc=" ++ toString cpu.pc))

/-- Source `executor.rs::Executor::run`: the `while steps < max_steps` loop,
rendered with the remaining iteration count as fuel and the completed step
count as accumulator. -/
def runGo (s : EmuState) (fuel steps : Nat) : EmuState × Except String Nat :=
  match fuel with
  | 0 => (s, Except.ok steps)
  | Nat.succ fuel' =>
    match step s with
    | (s', Except.error e) => (s', Except.error e)
    | (s', Except.ok _) =>
      if s'.cpu.pc = 0 then ({ s' with halted := true }, Except.ok (steps+1))
      else runGo s' fuel' (steps+1)

def run (s : EmuState) (max_steps : Nat) : EmuState × Except String Nat :=
  runGo s max_steps 0

/-- Iterated `step`, keeping the state component of each call. -/
def stepN (n : Nat) (s : EmuState) : EmuState :=
  match n with
  | 0 => s
  | Nat.succ k => stepN k (step s).1

/-- Whether a `step` call from `s` reaches the decode/record point: the
executor is not halted and the instruction fetch succeeds. -/
def stepDecodes (s : EmuState) : Bool :=
  !s.halted && (s.cpu.read_word s.cpu.pc).isOk

/-- Number of the first `n` chained `step` calls that decode an instruction
(pass the halt check and the fetch). -/
def decodedCount (n : Nat) (s : EmuState) : Nat :=
  match n with
  | 0 => 0
  | Nat.succ k => (if stepDecodes s then 1 else 0) + decodedCount k (step s).1

/-- Number of the first `n` chained `step` calls that retire, i.e. return
without error. -/
def retiredCount (n : Nat) (s : EmuState) : Nat :=
  match n with
  | 0 => 0
  | Nat.succ k => (if (step s).2.isOk then 1 else 0) + retiredCount k (step s).1

/-- All 25 operation kinds (the key set of the instruction-mix map). -/
def opcodeList : List Opcode :=
  [Opcode.Add, Opcode.Sub, Opcode.And, Opcode.Or, Opcode.Xor, Opcode.Sll,
   Opcode.Srl, Opcode.Sra, Opcode.Addi, Opcode.Andi, Opcode.Ori, Opcode.Xori,
   Opcode.Slli, Opcode.Srli, Opcode.Srai, Opcode.Lw, Opcode.Jalr, Opcode.Sw,
   Opcode.Beq, Opcode.Bne, Opcode.Blt, Opcode.Bge, Opcode.Lui, Opcode.Auipc,
   Opcode.Jal, Opcode.Unknown]

/-- Sum of the per-operation-kind mix counts. -/
def mixSum (m : Metrics) : Nat := (opcodeList.map m.inst_mix).sum

/-! ## Assembler (`assembler.rs`)

String manipulation is carried out on the character lists underlying the
Rust `&str` slices. -/

/-- Rust `str::trim`. -/
def trimChars (cs : List Char) : List Char :=
  ((cs.dropWhile Char.isWhitespace).reverse.dropWhile Char.isWhitespace).reverse

/-- Rust `str::split_whitespace`: whitespace-separated tokens, empty
substrings discarded. -/
def splitWS (s : String) : List String :=
  ((s.data.splitOnP (fun c => c.isWhitespace)).map (fun l => String.mk l)).filter
    (fun t => t ≠ "")

/-- Rust `str::lines`: split on newline, removing one carriage return at
the end of a line. A trailing newline yields a final empty segment here
where Rust yields none; the assembler skips blank lines, so the difference
is immaterial. -/
def rustLines (s : String) : List String :=
  (s.data.splitOnP (fun c => c = '\n')).map
    (fun l => String.mk (if l.getLast? = some '\x0d' then l.dropLast else l))

/-- Rust `str::trim_end_matches(',')`: drop every trailing comma. -/
def dropCommas (cs : List Char) : List Char :=
  (cs.reverse.dropWhile (fun c => c = ',')).reverse

/-- Decimal digit-string value. Rust's unsigned `FromStr` accepts an
optional leading `+` (handled by the callers) followed by one or more ASCII
digits. -/
def parseDigits (cs : List Char) : Option Nat :=
  if cs ≠ [] ∧ cs.all Char.isDigit then
    some (cs.foldl (fun a c => a * 10 + (c.toNat - 48)) 0)
  else none

/-- Rust `str::parse::<u32>`: value range checked (overflow is an error). -/
def parseU32 (cs : List Char) : Option Nat :=
  let cs := match cs with
    | '+' :: rest => rest
    | _ => cs
  match parseDigits cs with
  | some v => if v < 2^32 then some v else none
  | none => none

/-- Rust `str::parse::<i32>`: optional sign, decimal digits, i32 range. -/
def parseI32 (cs : List Char) : Option Int :=
  match cs with
  | '-' :: rest =>
    match parseDigits rest with
    | some v => if v ≤ 2^31 then some (-(v : Int)) else none
    | none => none
  | '+' :: rest =>
    match parseDigits rest with
    | some v => if v < 2^31 then some ((v : Int)) else none
    | none => none
  | _ =>
    match parseDigits cs with
    | some v => if v < 2^31 then some ((v : Int)) else none
    | none => none

def hexDigitVal (c : Char) : Option Nat :=
  if c.isDigit then some (c.toNat - 48)
  else if 'a' ≤ c ∧ c ≤ 'f' then some (c.toNat - 87)
  else if 'A' ≤ c ∧ c ≤ 'F' then some (c.toNat - 55)
  else none

def parseHexDigits (cs : List Char) : Option Nat :=
  if cs = [] then none
  else cs.foldl (fun acc c =>
    match acc, hexDigitVal c with
    | some a, some d => some (a * 16 + d)
    | _, _ => none) (some 0)

/-- Rust `u32::from_str_radix(_, 16)`: optional leading `+`, hex digits,
range checked. -/
def parseHexU32 (cs : List Char) : Option Nat :=
  let cs := match cs with
    | '+' :: rest => rest
    | _ => cs
  match parseHexDigits cs with
  | some v => if v < 2^32 then some v else none
  | none => none

/-- Source `assembler.rs::parse_reg`. -/
def parse_reg (s : String) : Except String Nat :=
  let cs := dropCommas s.data
  match cs with
  | 'x' :: rest =>
    match parseU32 rest with
    | some n => Except.ok n
    | none => Except.error ("invalid register: " ++ String.mk cs)
  | _ => Except.error ("invalid register format: " ++ String.mk cs)

/-- Source `assembler.rs::parse_imm`; produces the `u32` value (a negative
decimal literal is cast `as u32`). -/
def parse_imm (s : String) : Except String Nat :=
  let cs := dropCommas s.data
  match cs with
  | '0' :: 'x' :: rest =>
    match parseHexU32 rest with
    | some v => Except.ok v
    | none => Except.error ("invalid hex immediate: " ++ String.mk cs)
  | _ =>
    match parseI32 cs with
    | some v => Except.ok (ofI32 v)
    | none => Except.error ("invalid immediate: " ++ String.mk cs)

/-- Source `assembler.rs::parse_mem_operand` (`offset(reg)` form). When
`(` is the last character the Rust byte range `[idx+1 .. len-1]` panics;
here that case yields the empty register token, which fails like any other
malformed register. -/
def parse_mem_operand (s : String) : Except String (Nat × Nat) :=
  let cs := s.data
  let pre := cs.takeWhile (fun c => c ≠ '(')
  if pre.length = cs.length then Except.error ("invalid memory operand: " ++ s)
  else
    match (if pre = [] then Except.ok 0 else parse_imm (String.mk pre)) with
    | Except.error e => Except.error e
    | Except.ok offset =>
      match parse_reg (String.mk ((cs.drop (pre.length + 1)).dropLast)) with
      | Except.error e => Except.error e
      | Except.ok reg => Except.ok (offset, reg)

/-- Source `assembler.rs::Assembler::assemble_rtype`. -/
def assemble_rtype (op : String) (args : List String) : Except String Nat :=
  if args.length < 3 then Except.error ("not enough args for " ++ op)
  else
    match parse_reg (args.getD 0 "") with
    | Except.error e => Except.error e
    | Except.ok rd =>
      match parse_reg (args.getD 1 "") with
      | Except.error e => Except.error e
      | Except.ok rs1 =>
        match parse_reg (args.getD 2 "") with
        | Except.error e => Except.error e
        | Except.ok rs2 =>
          match (if op = "add" then some ((0x0:Nat), (0x00:Nat))
            else if op = "sub" then some (0x0, 0x20)
            else if op = "and" then some (0x7, 0x00)
            else if op = "or" then some (0x6, 0x00)
            else if op = "xor" then some (0x4, 0x00)
            else if op = "sll" then some (0x1, 0x00)
            else if op = "srl" then some (0x5, 0x00)
            else if op = "sra" then some (0x5, 0x20)
            else none) with
          | none => Except.error ("unknown r-type: " ++ op)
          | some p =>
            Except.ok ((p.2 <<< 25) ||| (rs2 <<< 20) ||| (rs1 <<< 15) |||
              (p.1 <<< 12) ||| (rd <<< 7) ||| 0x33)

/-- Source `assembler.rs::Assembler::assemble_itype`. -/
def assemble_itype (op : String) (args : List String) : Except String Nat :=
  if args.length < 3 then Except.error ("not enough args for " ++ op)
  else
    match parse_reg (args.getD 0 "") with
    | Except.error e => Except.error e
    | Except.ok rd =>
      match parse_reg (args.getD 1 "") with
      | Except.error e => Except.error e
      | Except.ok rs1 =>
        match parse_imm (args.getD 2 "") with
        | Except.error e => Except.error e
        | Except.ok imm0 =>
          let imm1 := imm0 &&& 0xfff
          match (if op = "addi" then some (0x0:Nat)
            else if op = "andi" then some 0x7
            else if op = "ori" then some 0x6
            else if op = "xori" then some 0x4
            else if op = "slli" then some 0x1
            else if op = "srli" then some 0x5
            else if op = "srai" then some 0x5
            else none) with
          | none => Except.error ("unknown i-type: " ++ op)
          | some funct3 =>
            let imm := if op = "srai" then imm1 ||| 0x400 else imm1
            Except.ok ((imm <<< 20) ||| (rs1 <<< 15) ||| (funct3 <<< 12) |||
              (rd <<< 7) ||| 0x13)

/-- Source `assembler.rs::Assembler::assemble_load`. -/
def assemble_load (args : List String) : Except String Nat :=
  if args.length < 2 then Except.error "not enough args for lw"
  else
    match parse_reg (args.getD 0 "") with
    | Except.error e => Except.error e
    | Except.ok rd =>
      match parse_mem_operand (args.getD 1 "") with
      | Except.error e => Except.error e
      | Except.ok p =>
        Except.ok (((p.1 &&& 0xfff) <<< 20) ||| (p.2 <<< 15) ||| (0x2 <<< 12) |||
          (rd <<< 7) ||| 0x03)

/-- Source `assembler.rs::Assembler::assemble_store`. -/
def assemble_store (args : List String) : Except String Nat :=
  if args.length < 2 then Except.error "not enough args for sw"
  else
    match parse_reg (args.getD 0 "") with
    | Except.error e => Except.error e
    | Except.ok rs2 =>
      match parse_mem_operand (args.getD 1 "") with
      | Except.error e => Except.error e
      | Except.ok p =>
        let imm_low := p.1 &&& 0x1f
        let imm_high := (p.1 >>> 5) &&& 0x7f
        Except.ok ((imm_high <<< 25) ||| (rs2 <<< 20) ||| (p.2 <<< 15) |||
          (0x2 <<< 12) ||| (imm_low <<< 7) ||| 0x23)

/-- Source `assembler.rs::Assembler::assemble_branch`; `labels` is the map
built in pass 1. The branch target is the label address if the token is a
known label, otherwise the parsed literal; the encoded offset is
`target.wrapping_sub(pc)`, taken apart bit-wise with no range check. -/
def assemble_branch (labels : String → Option Nat) (op : String) (args : List String)
    (pc : Nat) : Except String Nat :=
  if args.length < 3 then Except.error ("not enough args for " ++ op)
  else
    match parse_reg (args.getD 0 "") with
    | Except.error e => Except.error e
    | Except.ok rs1 =>
      match parse_reg (args.getD 1 "") with
      | Except.error e => Except.error e
      | Except.ok rs2 =>
        match (match labels (args.getD 2 "") with
          | some addr => Except.ok addr
          | none => parse_imm (args.getD 2 "")) with
        | Except.error e => Except.error e
        | Except.ok target =>
          let offset := wsub target pc
          let imm_12 := (offset >>> 12) &&& 0x1
          let imm_11 := (offset >>> 11) &&& 0x1
          let imm_10_5 := (offset >>> 5) &&& 0x3f
          let imm_4_1 := (offset >>> 1) &&& 0xf
          match (if op = "beq" then some (0x0:Nat)
            else if op = "bne" then some 0x1
            else if op = "blt" then some 0x4
            else if op = "bge" then some 0x5
            else none) with
          | none => Except.error ("unknown branch: " ++ op)
          | some funct3 =>
            Except.ok ((imm_12 <<< 31) ||| (imm_10_5 <<< 25) ||| (rs2 <<< 20) |||
              (rs1 <<< 15) ||| (funct3 <<< 12) ||| (imm_4_1 <<< 8) |||
              (imm_11 <<< 7) ||| 0x63)

/-- Source `assembler.rs::Assembler::assemble_lui`. The length guard only
rejects an empty argument list, yet `args[1]` is accessed: with exactly one
argument the Rust indexing panics, modelled as `none`. -/
def assemble_lui (args : List String) : Option (Except String Nat) :=
  if args.isEmpty then some (Except.error "not enough args for lui")
  else
    match parse_reg (args.getD 0 "") with
    | Except.error e => some (Except.error e)
    | Except.ok rd =>
      match args.get? 1 with
      | none => none
      | some a1 =>
        match parse_imm a1 with
        | Except.error e => some (Except.error e)
        | Except.ok imm0 =>
          let imm := imm0 &&& 0xfffff
          some (Except.ok ((imm <<< 12) ||| (rd <<< 7) ||| 0x37))

/-- Source `assembler.rs::Assembler::assemble_auipc`. -/
def assemble_auipc (args : List String) : Except String Nat :=
  if args.length < 2 then Except.error "not enough args for auipc"
  else
    match parse_reg (args.getD 0 "") with
    | Except.error e => Except.error e
    | Except.ok rd =>
      match parse_imm (args.getD 1 "") with
      | Except.error e => Except.error e
      | Except.ok imm0 =>
        let imm := imm0 &&& 0xfffff
        Except.ok ((imm <<< 12) ||| (rd <<< 7) ||| 0x17)

/-- Source `assembler.rs::Assembler::assemble_jal`: target resolution as
for branches; offset bits are placed at the J-format positions (`imm_20`
bit 31, `imm_10_1` bits 30:21, `imm_11` bit 20, `imm_19_12` bits 19:12),
with no range check. -/
def assemble_jal (labels : String → Option Nat) (args : List String) (pc : Nat) :
    Except String Nat :=
  if args.length < 2 then Except.error "not enough args for jal"
  else
    match parse_reg (args.getD 0 "") with
    | Except.error e => Except.error e
    | Except.ok rd =>
      match (match labels (args.getD 1 "") with
        | some addr => Except.ok addr
        | none => parse_imm (args.getD 1 "")) with
      | Except.error e => Except.error e
      | Except.ok target =>
        let offset := wsub target pc
        let imm_20 := (offset >>> 20) &&& 0x1
        let imm_10_1 := (offset >>> 1) &&& 0x3ff
        let imm_11 := (offset >>> 11) &&& 0x1
        let imm_19_12 := (offset >>> 12) &&& 0xff
        Except.ok ((imm_20 <<< 31) ||| (imm_19_12 <<< 12) ||| (imm_11 <<< 20) |||
          (imm_10_1 <<< 21) ||| (rd <<< 7) ||| 0x6f)

/-- Source `assembler.rs::Assembler::assemble_jalr`. -/
def assemble_jalr (args : List String) : Except String Nat :=
  if args.length < 2 then Except.error "not enough args for jalr"
  else
    match parse_reg (args.getD 0 "") with
    | Except.error e => Except.error e
    | Except.ok rd =>
      match parse_mem_operand (args.getD 1 "") with
      | Except.error e => Except.error e
      | Except.ok p =>
        Except.ok (((p.1 &&& 0xfff) <<< 20) ||| (p.2 <<< 15) ||| (rd <<< 7) ||| 0x67)

/-- Source `assembler.rs::Assembler::assemble_instruction`: tokenise and
dispatch on the mnemonic. The `Option` layer records the one reachable
panic (LUI, see `assemble_lui`). -/
def assemble_instruction (labels : String → Option Nat) (line : String) (pc : Nat) :
    Option (Except String Nat) :=
  let parts := splitWS line
  if parts.isEmpty then some (Except.error "empty instruction")
  else
    let op := parts.getD 0 ""
    let args := parts.drop 1
    if op = "add" ∨ op = "sub" ∨ op = "and" ∨ op = "or" ∨ op = "xor" ∨
        op = "sll" ∨ op = "srl" ∨ op = "sra" then
      some (assemble_rtype op args)
    else if op = "addi" ∨ op = "andi" ∨ op = "ori" ∨ op = "xori" ∨
        op = "slli" ∨ op = "srli" ∨ op = "srai" then
      some (assemble_itype op args)
    else if op = "lw" then some (assemble_load args)
    else if op = "sw" then some (assemble_store args)
    else if op = "beq" ∨ op = "bne" ∨ op = "blt" ∨ op = "bge" then
      some (assemble_branch labels op args pc)
    else if op = "lui" then assemble_lui args
    else if op = "auipc" then some (assemble_auipc args)
    else if op = "jal" then some (assemble_jal labels args pc)
    else if op = "jalr" then some (assemble_jalr args)
    else some (Except.error ("unknown instruction: " ++ op))

/-- Label-map insertion (`HashMap::insert`, last definition wins). -/
def insertLabel (labels : String → Option Nat) (k : String) (v : Nat) :
    String → Option Nat :=
  fun s => if s = k then some v else labels s

/-- Pass 1 of `assembler.rs::Assembler::assemble`: collect labels and the
non-comment instruction lines, advancing the location counter by 4 per
instruction. -/
def pass1 : List String → (String → Option Nat) → Nat →
    ((String → Option Nat) × List String)
  | [], labels, _ => (labels, [])
  | line :: rest, labels, pc =>
    let t := trimChars line.data
    if t.isEmpty ∨ t.head? = some '#' then pass1 rest labels pc
    else if t.getLast? = some ':' then
      pass1 rest (insertLabel labels (String.mk t.dropLast) pc) pc
    else
      let r := pass1 rest labels (pc + 4)
      (r.1, String.mk t :: r.2)

/-- Pass 2 of `assembler.rs::Assembler::assemble`: assemble each cleaned
line, emitting the word's four bytes little-endian; the first error aborts
the whole assembly. -/
def pass2 (labels : String → Option Nat) : List String → Nat →
    Option (Except String (List Nat))
  | [], _ => some (Except.ok [])
  | line :: rest, pc =>
    match assemble_instruction labels line pc with
    | none => none
    | some (Except.error e) => some (Except.error e)
    | some (Except.ok w) =>
      match pass2 labels rest (pc + 4) with
      | none => none
      | some (Except.error e) => some (Except.error e)
      | some (Except.ok bs) =>
        some (Except.ok ([w % 2^8, w / 2^8 % 2^8, w / 2^16 % 2^8, w / 2^24 % 2^8] ++ bs))

/-- Source `assembler.rs::Assembler::assemble` on a fresh assembler
(empty label map). -/
def assemble (source : String) : Option (Except String (List Nat)) :=
  let r := pass1 (rustLines source) (fun _ => none) 0
  pass2 r.1 r.2 0

/-! ## Encoded-word normal forms

Each assembler output is an or/shift combination of disjoint fields; these
lemmas rewrite the combinations into sums, on which `omega` can compute the
decoder's field extractions. -/

theorem lor_rot (x y z : Nat) : x ||| y ||| z = x ||| z ||| y := by
  rw [Nat.lor_assoc, Nat.lor_assoc, Nat.lor_comm y z]

/-- Normal form shared by the R- and S-format encoders. -/
theorem word_rs (a b c d e opc : Nat) (ha : a < 128) (hb : b < 32) (hc : c < 32)
    (hd : d < 8) (he : e < 32) (hopc : opc < 128) :
    (a <<< 25) ||| (b <<< 20) ||| (c <<< 15) ||| (d <<< 12) ||| (e <<< 7) ||| opc
      = a * 2^25 + b * 2^20 + c * 2^15 + d * 2^12 + e * 2^7 + opc := by
  simp only [Nat.shiftLeft_eq]
  rw [lor_eq_add 25 (a * 2^25) (b * 2^20) (by omega) (by omega)]
  rw [lor_eq_add 20 (a * 2^25 + b * 2^20) (c * 2^15) (by omega) (by omega)]
  rw [lor_eq_add 15 (a * 2^25 + b * 2^20 + c * 2^15) (d * 2^12) (by omega) (by omega)]
  rw [lor_eq_add 12 (a * 2^25 + b * 2^20 + c * 2^15 + d * 2^12) (e * 2^7)
    (by omega) (by omega)]
  rw [lor_eq_add 7 (a * 2^25 + b * 2^20 + c * 2^15 + d * 2^12 + e * 2^7) opc
    (by omega) (by omega)]

/-- Normal form of the B-format encoder. -/
theorem word_b (a b c d e f g opc : Nat) (ha : a < 2) (hb : b < 64) (hc : c < 32)
    (hd : d < 32) (he : e < 8) (hf : f < 16) (hg : g < 2) (hopc : opc < 128) :
    (a <<< 31) ||| (b <<< 25) ||| (c <<< 20) ||| (d <<< 15) ||| (e <<< 12) |||
      (f <<< 8) ||| (g <<< 7) ||| opc
      = a * 2^31 + b * 2^25 + c * 2^20 + d * 2^15 + e * 2^12 + f * 2^8 + g * 2^7 + opc := by
  simp only [Nat.shiftLeft_eq]
  rw [lor_eq_add 31 (a * 2^31) (b * 2^25) (by omega) (by omega)]
  rw [lor_eq_add 25 (a * 2^31 + b * 2^25) (c * 2^20) (by omega) (by omega)]
  rw [lor_eq_add 20 (a * 2^31 + b * 2^25 + c * 2^20) (d * 2^15) (by omega) (by omega)]
  rw [lor_eq_add 15 (a * 2^31 + b * 2^25 + c * 2^20 + d * 2^15) (e * 2^12)
    (by omega) (by omega)]
  rw [lor_eq_add 12 (a * 2^31 + b * 2^25 + c * 2^20 + d * 2^15 + e * 2^12) (f * 2^8)
    (by omega) (by omega)]
  rw [lor_eq_add 8 (a * 2^31 + b * 2^25 + c * 2^20 + d * 2^15 + e * 2^12 + f * 2^8)
    (g * 2^7) (by omega) (by omega)]
  rw [lor_eq_add 7
    (a * 2^31 + b * 2^25 + c * 2^20 + d * 2^15 + e * 2^12 + f * 2^8 + g * 2^7) opc
    (by omega) (by omega)]

/-- Normal form of the I-format encoders with a funct3 field. -/
theorem word_i (a b c d opc : Nat) (ha : a < 4096) (hb : b < 32) (hc : c < 8)
    (hd : d < 32) (hopc : opc < 128) :
    (a <<< 20) ||| (b <<< 15) ||| (c <<< 12) ||| (d <<< 7) ||| opc
      = a * 2^20 + b * 2^15 + c * 2^12 + d * 2^7 + opc := by
  simp only [Nat.shiftLeft_eq]
  rw [lor_eq_add 20 (a * 2^20) (b * 2^15) (by omega) (by omega)]
  rw [lor_eq_add 15 (a * 2^20 + b * 2^15) (c * 2^12) (by omega) (by omega)]
  rw [lor_eq_add 12 (a * 2^20 + b * 2^15 + c * 2^12) (d * 2^7) (by omega) (by omega)]
  rw [lor_eq_add 7 (a * 2^20 + b * 2^15 + c * 2^12 + d * 2^7) opc (by omega) (by omega)]

/-- Normal form of the JALR encoder (no funct3 term). -/
theorem word_jalr_nf (a b c opc : Nat) (ha : a < 4096) (hb : b < 32) (hc : c < 32)
    (hopc : opc < 128) :
    (a <<< 20) ||| (b <<< 15) ||| (c <<< 7) ||| opc
      = a * 2^20 + b * 2^15 + c * 2^7 + opc := by
  simp only [Nat.shiftLeft_eq]
  rw [lor_eq_add 20 (a * 2^20) (b * 2^15) (by omega) (by omega)]
  rw [lor_eq_add 15 (a * 2^20 + b * 2^15) (c * 2^7) (by omega) (by omega)]
  rw [lor_eq_add 7 (a * 2^20 + b * 2^15 + c * 2^7) opc (by omega) (by omega)]

/-- Normal form of the U-format encoders. -/
theorem word_u (a b opc : Nat) (ha : a < 1048576) (hb : b < 32) (hopc : opc < 128) :
    (a <<< 12) ||| (b <<< 7) ||| opc = a * 2^12 + b * 2^7 + opc := by
  simp only [Nat.shiftLeft_eq]
  rw [lor_eq_add 12 (a * 2^12) (b * 2^7) (by omega) (by omega)]
  rw [lor_eq_add 7 (a * 2^12 + b * 2^7) opc (by omega) (by omega)]

/-- Normal form of the J-format encoder; the source emits the fields out of
bit order, so they are first rotated into descending position. -/
theorem word_jal_nf (a b c d e opc : Nat) (ha : a < 2) (hb : b < 256) (hc : c < 2)
    (hd : d < 1024) (he : e < 32) (hopc : opc < 128) :
    (a <<< 31) ||| (b <<< 12) ||| (c <<< 20) ||| (d <<< 21) ||| (e <<< 7) ||| opc
      = a * 2^31 + d * 2^21 + c * 2^20 + b * 2^12 + e * 2^7 + opc := by
  simp only [Nat.shiftLeft_eq]
  rw [lor_rot (a * 2^31 ||| b * 2^12) (c * 2^20) (d * 2^21)]
  rw [lor_rot (a * 2^31) (b * 2^12) (d * 2^21)]
  rw [lor_rot (a * 2^31 ||| d * 2^21) (b * 2^12) (c * 2^20)]
  rw [lor_eq_add 31 (a * 2^31) (d * 2^21) (by omega) (by omega)]
  rw [lor_eq_add 21 (a * 2^31 + d * 2^21) (c * 2^20) (by omega) (by omega)]
  rw [lor_eq_add 20 (a * 2^31 + d * 2^21 + c * 2^20) (b * 2^12) (by omega) (by omega)]
  rw [lor_eq_add 12 (a * 2^31 + d * 2^21 + c * 2^20 + b * 2^12) (e * 2^7)
    (by omega) (by omega)]
  rw [lor_eq_add 7 (a * 2^31 + d * 2^21 + c * 2^20 + b * 2^12 + e * 2^7) opc
    (by omega) (by omega)]

/-- Normal form of the decoder's B-immediate reassembly. -/
theorem bimm_nf (a b c d : Nat) (ha : a < 2) (hb : b < 2) (hc : c < 64) (hd : d < 16) :
    (a <<< 12) ||| (b <<< 11) ||| (c <<< 5) ||| (d <<< 1)
      = a * 2^12 + b * 2^11 + c * 2^5 + d * 2 := by
  simp only [Nat.shiftLeft_eq]
  rw [lor_eq_add 12 (a * 2^12) (b * 2^11) (by omega) (by omega)]
  rw [lor_eq_add 11 (a * 2^12 + b * 2^11) (c * 2^5) (by omega) (by omega)]
  rw [lor_eq_add 5 (a * 2^12 + b * 2^11 + c * 2^5) (d * 2) (by omega) (by omega)]

/-- Normal form of the decoder's J-immediate reassembly. -/
theorem jimm_nf (a b c d : Nat) (ha : a < 2) (hb : b < 256) (hc : c < 2) (hd : d < 1024) :
    (a <<< 20) ||| (b <<< 12) ||| (c <<< 11) ||| (d <<< 1)
      = a * 2^20 + b * 2^12 + c * 2^11 + d * 2 := by
  simp only [Nat.shiftLeft_eq]
  rw [lor_eq_add 20 (a * 2^20) (b * 2^12) (by omega) (by omega)]
  rw [lor_eq_add 12 (a * 2^20 + b * 2^12) (c * 2^11) (by omega) (by omega)]
  rw [lor_eq_add 11 (a * 2^20 + b * 2^12 + c * 2^11) (d * 2) (by omega) (by omega)]

/-! ## Decoding the normal forms -/

theorem decode_rtype (f7 b2 b1 f3 rd : Nat) (h7 : f7 < 128) (h2 : b2 < 32)
    (h1 : b1 < 32) (h3 : f3 < 8) (hrd : rd < 32) :
    Instruction.decode (f7 * 2^25 + b2 * 2^20 + b1 * 2^15 + f3 * 2^12 + rd * 2^7 + 51) =
      ⟨if f3 = 0 ∧ f7 = 0 then Opcode.Add
        else if f3 = 0 ∧ f7 = 32 then Opcode.Sub
        else if f3 = 7 ∧ f7 = 0 then Opcode.And
        else if f3 = 6 ∧ f7 = 0 then Opcode.Or
        else if f3 = 4 ∧ f7 = 0 then Opcode.Xor
        else if f3 = 1 ∧ f7 = 0 then Opcode.Sll
        else if f3 = 5 ∧ f7 = 0 then Opcode.Srl
        else if f3 = 5 ∧ f7 = 32 then Opcode.Sra
        else Opcode.Unknown, rd, b1, b2, 0⟩ := by
  have h0 : (f7 * 2^25 + b2 * 2^20 + b1 * 2^15 + f3 * 2^12 + rd * 2^7 + 51) &&& 127
      = 51 := by
    rw [and_127]
    omega
  have e1 : ((f7 * 2^25 + b2 * 2^20 + b1 * 2^15 + f3 * 2^12 + rd * 2^7 + 51) >>> 7)
      &&& 31 = rd := by
    rw [Nat.shiftRight_eq_div_pow, and_31]
    omega
  have e2 : ((f7 * 2^25 + b2 * 2^20 + b1 * 2^15 + f3 * 2^12 + rd * 2^7 + 51) >>> 12)
      &&& 7 = f3 := by
    rw [Nat.shiftRight_eq_div_pow, and_7]
    omega
  have e3 : ((f7 * 2^25 + b2 * 2^20 + b1 * 2^15 + f3 * 2^12 + rd * 2^7 + 51) >>> 15)
      &&& 31 = b1 := by
    rw [Nat.shiftRight_eq_div_pow, and_31]
    omega
  have e4 : ((f7 * 2^25 + b2 * 2^20 + b1 * 2^15 + f3 * 2^12 + rd * 2^7 + 51) >>> 20)
      &&& 31 = b2 := by
    rw [Nat.shiftRight_eq_div_pow, and_31]
    omega
  have e5 : ((f7 * 2^25 + b2 * 2^20 + b1 * 2^15 + f3 * 2^12 + rd * 2^7 + 51) >>> 25)
      &&& 127 = f7 := by
    rw [Nat.shiftRight_eq_div_pow, and_127]
    omega
  simp only [Instruction.decode, h0, e1, e2, e3, e4, e5, if_pos]

theorem decode_itype (imm b1 f3 rd : Nat) (him : imm < 4096) (h1 : b1 < 32)
    (h3 : f3 < 8) (hrd : rd < 32) :
    Instruction.decode (imm * 2^20 + b1 * 2^15 + f3 * 2^12 + rd * 2^7 + 19) =
      ⟨if f3 = 0 then Opcode.Addi
        else if f3 = 7 then Opcode.Andi
        else if f3 = 6 then Opcode.Ori
        else if f3 = 4 then Opcode.Xori
        else if f3 = 1 then Opcode.Slli
        else if f3 = 5 then
          if imm / 32 = 0 then Opcode.Srli
          else if imm / 32 = 32 then Opcode.Srai
          else Opcode.Unknown
        else Opcode.Unknown, rd, b1, 0, sign_extend imm 12⟩ := by
  have h0 : (imm * 2^20 + b1 * 2^15 + f3 * 2^12 + rd * 2^7 + 19) &&& 127 = 19 := by
    rw [and_127]
    omega
  have e1 : ((imm * 2^20 + b1 * 2^15 + f3 * 2^12 + rd * 2^7 + 19) >>> 7) &&& 31
      = rd := by
    rw [Nat.shiftRight_eq_div_pow, and_31]
    omega
  have e2 : ((imm * 2^20 + b1 * 2^15 + f3 * 2^12 + rd * 2^7 + 19) >>> 12) &&& 7
      = f3 := by
    rw [Nat.shiftRight_eq_div_pow, and_7]
    omega
  have e3 : ((imm * 2^20 + b1 * 2^15 + f3 * 2^12 + rd * 2^7 + 19) >>> 15) &&& 31
      = b1 := by
    rw [Nat.shiftRight_eq_div_pow, and_31]
    omega
  have e5 : ((imm * 2^20 + b1 * 2^15 + f3 * 2^12 + rd * 2^7 + 19) >>> 25) &&& 127
      = imm / 32 := by
    rw [Nat.shiftRight_eq_div_pow, and_127]
    omega
  have e6 : (imm * 2^20 + b1 * 2^15 + f3 * 2^12 + rd * 2^7 + 19) >>> 20 = imm := by
    rw [Nat.shiftRight_eq_div_pow]
    omega
  simp only [Instruction.decode, h0, e1, e2, e3, e5, e6]
  norm_num

theorem decode_load (imm b1 rd : Nat) (him : imm < 4096) (h1 : b1 < 32)
    (hrd : rd < 32) :
    Instruction.decode (imm * 2^20 + b1 * 2^15 + 2 * 2^12 + rd * 2^7 + 3) =
      ⟨Opcode.Lw, rd, b1, 0, sign_extend imm 12⟩ := by
  have h0 : (imm * 2^20 + b1 * 2^15 + 2 * 2^12 + rd * 2^7 + 3) &&& 127 = 3 := by
    rw [and_127]
    omega
  have e1 : ((imm * 2^20 + b1 * 2^15 + 2 * 2^12 + rd * 2^7 + 3) >>> 7) &&& 31
      = rd := by
    rw [Nat.shiftRight_eq_div_pow, and_31]
    omega
  have e3 : ((imm * 2^20 + b1 * 2^15 + 2 * 2^12 + rd * 2^7 + 3) >>> 15) &&& 31
      = b1 := by
    rw [Nat.shiftRight_eq_div_pow, and_31]
    omega
  have e6 : (imm * 2^20 + b1 * 2^15 + 2 * 2^12 + rd * 2^7 + 3) >>> 20 = imm := by
    rw [Nat.shiftRight_eq_div_pow]
    omega
  simp only [Instruction.decode, h0, e1, e3, e6]
  norm_num

theorem decode_sw (ih b2 b1 il : Nat) (hih : ih < 128) (h2 : b2 < 32) (h1 : b1 < 32)
    (hil : il < 32) :
    Instruction.decode (ih * 2^25 + b2 * 2^20 + b1 * 2^15 + 2 * 2^12 + il * 2^7 + 35) =
      ⟨Opcode.Sw, 0, b1, b2, sign_extend (ih * 32 + il) 12⟩ := by
  have h0 : (ih * 2^25 + b2 * 2^20 + b1 * 2^15 + 2 * 2^12 + il * 2^7 + 35) &&& 127
      = 35 := by
    rw [and_127]
    omega
  have e1 : ((ih * 2^25 + b2 * 2^20 + b1 * 2^15 + 2 * 2^12 + il * 2^7 + 35) >>> 7)
      &&& 31 = il := by
    rw [Nat.shiftRight_eq_div_pow, and_31]
    omega
  have e3 : ((ih * 2^25 + b2 * 2^20 + b1 * 2^15 + 2 * 2^12 + il * 2^7 + 35) >>> 15)
      &&& 31 = b1 := by
    rw [Nat.shiftRight_eq_div_pow, and_31]
    omega
  have e4 : ((ih * 2^25 + b2 * 2^20 + b1 * 2^15 + 2 * 2^12 + il * 2^7 + 35) >>> 20)
      &&& 31 = b2 := by
    rw [Nat.shiftRight_eq_div_pow, and_31]
    omega
  have e5 : ((ih * 2^25 + b2 * 2^20 + b1 * 2^15 + 2 * 2^12 + il * 2^7 + 35) >>> 25)
      &&& 127 = ih := by
    rw [Nat.shiftRight_eq_div_pow, and_127]
    omega
  have e7 : (ih <<< 5) ||| il = ih * 32 + il := by
    rw [Nat.shiftLeft_eq]
    rw [lor_eq_add 5 (ih * 2^5) il (by omega) (by omega)]
  simp only [Instruction.decode, h0, e1, e3, e4, e5, e7]
  norm_num

theorem decode_branch (i12 i10_5 b2 b1 f3 i4_1 i11 : Nat) (ha : i12 < 2)
    (hb : i10_5 < 64) (h2 : b2 < 32) (h1 : b1 < 32) (h3 : f3 < 8) (hf : i4_1 < 16)
    (hg : i11 < 2) :
    Instruction.decode (i12 * 2^31 + i10_5 * 2^25 + b2 * 2^20 + b1 * 2^15 +
        f3 * 2^12 + i4_1 * 2^8 + i11 * 2^7 + 99) =
      ⟨if f3 = 0 then Opcode.Beq
        else if f3 = 1 then Opcode.Bne
        else if f3 = 4 then Opcode.Blt
        else if f3 = 5 then Opcode.Bge
        else Opcode.Unknown, 0, b1, b2,
        sign_extend (i12 * 2^12 + i11 * 2^11 + i10_5 * 2^5 + i4_1 * 2) 13⟩ := by
  have h0 : (i12 * 2^31 + i10_5 * 2^25 + b2 * 2^20 + b1 * 2^15 + f3 * 2^12 +
      i4_1 * 2^8 + i11 * 2^7 + 99) &&& 127 = 99 := by
    rw [and_127]
    omega
  have e1 : ((i12 * 2^31 + i10_5 * 2^25 + b2 * 2^20 + b1 * 2^15 + f3 * 2^12 +
      i4_1 * 2^8 + i11 * 2^7 + 99) >>> 7) &&& 1 = i11 := by
    rw [Nat.shiftRight_eq_div_pow, and_1]
    omega
  have e2 : ((i12 * 2^31 + i10_5 * 2^25 + b2 * 2^20 + b1 * 2^15 + f3 * 2^12 +
      i4_1 * 2^8 + i11 * 2^7 + 99) >>> 8) &&& 15 = i4_1 := by
    rw [Nat.shiftRight_eq_div_pow, and_15]
    omega
  have e3 : ((i12 * 2^31 + i10_5 * 2^25 + b2 * 2^20 + b1 * 2^15 + f3 * 2^12 +
      i4_1 * 2^8 + i11 * 2^7 + 99) >>> 12) &&& 7 = f3 := by
    rw [Nat.shiftRight_eq_div_pow, and_7]
    omega
  have e4 : ((i12 * 2^31 + i10_5 * 2^25 + b2 * 2^20 + b1 * 2^15 + f3 * 2^12 +
      i4_1 * 2^8 + i11 * 2^7 + 99) >>> 15) &&& 31 = b1 := by
    rw [Nat.shiftRight_eq_div_pow, and_31]
    omega
  have e5 : ((i12 * 2^31 + i10_5 * 2^25 + b2 * 2^20 + b1 * 2^15 + f3 * 2^12 +
      i4_1 * 2^8 + i11 * 2^7 + 99) >>> 20) &&& 31 = b2 := by
    rw [Nat.shiftRight_eq_div_pow, and_31]
    omega
  have e6 : ((i12 * 2^31 + i10_5 * 2^25 + b2 * 2^20 + b1 * 2^15 + f3 * 2^12 +
      i4_1 * 2^8 + i11 * 2^7 + 99) >>> 25) &&& 63 = i10_5 := by
    rw [Nat.shiftRight_eq_div_pow, and_63]
    omega
  have e7 : ((i12 * 2^31 + i10_5 * 2^25 + b2 * 2^20 + b1 * 2^15 + f3 * 2^12 +
      i4_1 * 2^8 + i11 * 2^7 + 99) >>> 31) &&& 1 = i12 := by
    rw [Nat.shiftRight_eq_div_pow, and_1]
    omega
  have e8 := bimm_nf i12 i11 i10_5 i4_1 ha hg hb hf
  simp only [Instruction.decode, h0, e1, e2, e3, e4, e5, e6, e7, e8]
  norm_num

theorem decode_lui (v rd : Nat) (hv : v < 1048576) (hrd : rd < 32) :
    Instruction.decode (v * 2^12 + rd * 2^7 + 55) =
      ⟨Opcode.Lui, rd, 0, 0, toI32 (v * 4096)⟩ := by
  have h0 : (v * 2^12 + rd * 2^7 + 55) &&& 127 = 55 := by
    rw [and_127]
    omega
  have e1 : ((v * 2^12 + rd * 2^7 + 55) >>> 7) &&& 31 = rd := by
    rw [Nat.shiftRight_eq_div_pow, and_31]
    omega
  have e2 : (v * 2^12 + rd * 2^7 + 55) &&& 4294963200 = v * 4096 := by
    rw [and_fffff000]
    omega
  simp only [Instruction.decode, h0, e1, e2]
  norm_num

theorem decode_auipc (v rd : Nat) (hv : v < 1048576) (hrd : rd < 32) :
    Instruction.decode (v * 2^12 + rd * 2^7 + 23) =
      ⟨Opcode.Auipc, rd, 0, 0, toI32 (v * 4096)⟩ := by
  have h0 : (v * 2^12 + rd * 2^7 + 23) &&& 127 = 23 := by
    rw [and_127]
    omega
  have e1 : ((v * 2^12 + rd * 2^7 + 23) >>> 7) &&& 31 = rd := by
    rw [Nat.shiftRight_eq_div_pow, and_31]
    omega
  have e2 : (v * 2^12 + rd * 2^7 + 23) &&& 4294963200 = v * 4096 := by
    rw [and_fffff000]
    omega
  simp only [Instruction.decode, h0, e1, e2]
  norm_num

theorem decode_jal (i20 i19_12 i11 i10_1 rd : Nat) (ha : i20 < 2) (hb : i19_12 < 256)
    (hc : i11 < 2) (hd : i10_1 < 1024) (hrd : rd < 32) :
    Instruction.decode (i20 * 2^31 + i10_1 * 2^21 + i11 * 2^20 + i19_12 * 2^12 +
        rd * 2^7 + 111) =
      ⟨Opcode.Jal, rd, 0, 0,
        sign_extend (i20 * 2^20 + i19_12 * 2^12 + i11 * 2^11 + i10_1 * 2) 21⟩ := by
  have h0 : (i20 * 2^31 + i10_1 * 2^21 + i11 * 2^20 + i19_12 * 2^12 + rd * 2^7 + 111)
      &&& 127 = 111 := by
    rw [and_127]
    omega
  have e1 : ((i20 * 2^31 + i10_1 * 2^21 + i11 * 2^20 + i19_12 * 2^12 + rd * 2^7 + 111)
      >>> 7) &&& 31 = rd := by
    rw [Nat.shiftRight_eq_div_pow, and_31]
    omega
  have e2 : ((i20 * 2^31 + i10_1 * 2^21 + i11 * 2^20 + i19_12 * 2^12 + rd * 2^7 + 111)
      >>> 12) &&& 255 = i19_12 := by
    rw [Nat.shiftRight_eq_div_pow, and_255]
    omega
  have e3 : ((i20 * 2^31 + i10_1 * 2^21 + i11 * 2^20 + i19_12 * 2^12 + rd * 2^7 + 111)
      >>> 20) &&& 1 = i11 := by
    rw [Nat.shiftRight_eq_div_pow, and_1]
    omega
  have e4 : ((i20 * 2^31 + i10_1 * 2^21 + i11 * 2^20 + i19_12 * 2^12 + rd * 2^7 + 111)
      >>> 21) &&& 1023 = i10_1 := by
    rw [Nat.shiftRight_eq_div_pow, and_1023]
    omega
  have e5 : ((i20 * 2^31 + i10_1 * 2^21 + i11 * 2^20 + i19_12 * 2^12 + rd * 2^7 + 111)
      >>> 31) &&& 1 = i20 := by
    rw [Nat.shiftRight_eq_div_pow, and_1]
    omega
  have e6 := jimm_nf i20 i19_12 i11 i10_1 ha hb hc hd
  simp only [Instruction.decode, h0, e1, e2, e3, e4, e5, e6]
  norm_num

theorem decode_jalr (imm b1 rd : Nat) (him : imm < 4096) (h1 : b1 < 32)
    (hrd : rd < 32) :
    Instruction.decode (imm * 2^20 + b1 * 2^15 + rd * 2^7 + 103) =
      ⟨Opcode.Jalr, rd, b1, 0, sign_extend imm 12⟩ := by
  have h0 : (imm * 2^20 + b1 * 2^15 + rd * 2^7 + 103) &&& 127 = 103 := by
    rw [and_127]
    omega
  have e1 : ((imm * 2^20 + b1 * 2^15 + rd * 2^7 + 103) >>> 7) &&& 31 = rd := by
    rw [Nat.shiftRight_eq_div_pow, and_31]
    omega
  have e3 : ((imm * 2^20 + b1 * 2^15 + rd * 2^7 + 103) >>> 15) &&& 31 = b1 := by
    rw [Nat.shiftRight_eq_div_pow, and_31]
    omega
  have e6 : (imm * 2^20 + b1 * 2^15 + rd * 2^7 + 103) >>> 20 = imm := by
    rw [Nat.shiftRight_eq_div_pow]
    omega
  simp only [Instruction.decode, h0, e1, e3, e6]
  norm_num

/-! ## Sign extension at the three decoder widths -/

theorem sign_extend12 (v : Nat) (h : v < 4096) :
    sign_extend v 12 = if v < 2048 then (v : Int) else (v : Int) - 4096 := by
  rw [sign_extend_eq v 12 (by norm_num) (by norm_num)]
  norm_num [Nat.mod_eq_of_lt h]

theorem sign_extend13 (v : Nat) (h : v < 8192) :
    sign_extend v 13 = if v < 4096 then (v : Int) else (v : Int) - 8192 := by
  rw [sign_extend_eq v 13 (by norm_num) (by norm_num)]
  norm_num [Nat.mod_eq_of_lt h]

theorem sign_extend21 (v : Nat) (h : v < 2097152) :
    sign_extend v 21 = if v < 1048576 then (v : Int) else (v : Int) - 2097152 := by
  rw [sign_extend_eq v 21 (by norm_num) (by norm_num)]
  norm_num [Nat.mod_eq_of_lt h]

/-! ## Executor frame lemmas -/

theorem write_reg_getD_zero (c : Cpu) (rd v : Nat) :
    (c.write_reg rd v).regs[0]?.getD 0 = c.regs[0]?.getD 0 := by
  unfold Cpu.write_reg
  by_cases h : rd = 0
  · simp [h]
  · simp [h, List.getElem?_set_ne h]

/-- A successful `write_word` only changes memory. -/
theorem write_word_ok_frame (c c' : Cpu) (a v : Nat)
    (h : c.write_word a v = Except.ok c') : c'.regs = c.regs ∧ c'.pc = c.pc := by
  unfold Cpu.write_word at h
  split at h
  · cases h
  · cases h
    exact ⟨rfl, rfl⟩

/-- One executor step never changes register 0's stored value. -/
theorem step_x0 (s : EmuState) :
    (step s).1.cpu.regs.getD 0 0 = s.cpu.regs.getD 0 0 := by
  unfold step
  by_cases hh : s.halted
  · simp [hh]
  · simp only [hh]
    rcases hf : s.cpu.read_word s.cpu.pc with e | raw
    · simp
    · simp only []
      rcases hd : (Instruction.decode raw).opcode
      all_goals simp [hd, write_reg_getD_zero]
      all_goals try split
      all_goals try simp [write_reg_getD_zero]
      all_goals
        rename_i c' heq
        rw [(write_word_ok_frame _ _ _ _ heq).1]

/-- `record_instruction` raises the mix sum by exactly one (the recorded
opcode is among the 25 keys). -/
theorem mixSum_record (m : Metrics) (inst : Instruction) :
    mixSum (m.record_instruction inst) = mixSum m + 1 := by
  rcases hop : inst.opcode
  all_goals simp [Metrics.record_instruction, mixSum, opcodeList, hop]
  all_goals omega

theorem mixSum_record_branch (m : Metrics) (t : Bool) :
    mixSum (m.record_branch t) = mixSum m := by
  unfold Metrics.record_branch
  cases t <;> simp [mixSum]

theorem count_record_branch (m : Metrics) (t : Bool) :
    (m.record_branch t).inst_count = m.inst_count := by
  unfold Metrics.record_branch
  cases t <;> simp

/-- The metrics total goes up by one exactly when the step decodes an
instruction (no halt, fetch succeeded) — whether or not the step then
retires. -/
theorem step_count (s : EmuState) :
    (step s).1.metrics.inst_count
      = s.metrics.inst_count + (if stepDecodes s then 1 else 0) := by
  unfold step stepDecodes
  by_cases hh : s.halted
  · simp [hh]
  · simp only [hh]
    rcases hf : s.cpu.read_word s.cpu.pc with e | raw
    · simp [hf, Except.isOk, Except.toBool]
    · simp only [hf]
      rcases hd : (Instruction.decode raw).opcode
      all_goals simp [hd, Metrics.record_instruction, Except.isOk, Except.toBool]
      all_goals try split
      all_goals simp [count_record_branch, Metrics.record_instruction]

theorem step_mixSum (s : EmuState) :
    mixSum (step s).1.metrics = mixSum s.metrics + (if stepDecodes s then 1 else 0) := by
  unfold step stepDecodes
  by_cases hh : s.halted
  · simp [hh]
  · simp only [hh]
    rcases hf : s.cpu.read_word s.cpu.pc with e | raw
    · simp [hf, Except.isOk, Except.toBool]
    · simp only [hf]
      rcases hd : (Instruction.decode raw).opcode
      all_goals simp [hd, mixSum_record, Except.isOk, Except.toBool]
      all_goals try split
      all_goals simp [mixSum_record_branch, mixSum_record]

/-! ## Claims -/

theorem getD_replicate_zero (n i : Nat) : (List.replicate n 0).getD i 0 = 0 := by
  induction n generalizing i with
  | zero => simp [List.getD]
  | succ k ih =>
    cases i with
    | zero => simp [List.replicate, List.getD]
    | succ j => simpa [List.replicate, List.getD] using ih j

/-- C9: `reset` sets all 32 registers and the PC to zero and leaves every
byte of memory unchanged. -/
theorem claim_C9 (c : Cpu) :
    (c.reset).regs = List.replicate 32 0 ∧ (∀ i, (c.reset).read_reg i = 0) ∧
    (c.reset).pc = 0 ∧ (c.reset).mem = c.mem := by
  refine ⟨rfl, fun i => ?_, rfl, rfl⟩
  simp only [Cpu.reset, Cpu.read_reg, NREGS]
  exact getD_replicate_zero 32 i

/-- C2: writes to register 0 are silently discarded, reads of register 0
return 0 whenever the invariant holds, and the invariant `register[0] = 0`
is preserved by any number of executor steps on any program. -/
theorem claim_C2 :
    (∀ (c : Cpu) (v : Nat), c.write_reg 0 v = c) ∧
    (∀ c : Cpu, c.regs.getD 0 0 = 0 → c.read_reg 0 = 0) ∧
    (∀ (s : EmuState) (n : Nat), s.cpu.regs.getD 0 0 = 0 →
      (stepN n s).cpu.regs.getD 0 0 = 0) := by
  refine ⟨fun c v => by simp [Cpu.write_reg], fun c h => by simpa [Cpu.read_reg] using h,
    fun s n => ?_⟩
  induction n generalizing s with
  | zero => intro h; simpa [stepN] using h
  | succ k ih =>
    intro h
    have := step_x0 s
    exact ih (step s).1 (by omega)

theorem claim_C2_witness :
    ((⟨false, Cpu.new, Metrics.new⟩ : EmuState).cpu.regs.getD 0 0 = 0) ∧
    (stepN 3 ⟨false, Cpu.new, Metrics.new⟩).cpu.regs.getD 0 0 = 0 :=
  ⟨by decide, claim_C2.2.2 ⟨false, Cpu.new, Metrics.new⟩ 3 (by decide)⟩

/-- C7: a step that leaves PC = 0 makes `run` set the halt flag and return
`Ok` with the number of steps executed so far; a step on a halted executor
fails with the halted error and returns the state (CPU and metrics)
unchanged. -/
theorem claim_C7 :
    (∀ s : EmuState, s.halted = true → step s = (s, Except.error "cpu halted")) ∧
    (∀ (s s' : EmuState) (fuel steps : Nat), step s = (s', Except.ok ()) →
      s'.cpu.pc = 0 →
      runGo s (fuel+1) steps = ({ s' with halted := true }, Except.ok (steps+1))) := by
  constructor
  · intro s h
    simp [step, h]
  · intro s s' fuel steps hstep hpc
    simp [runGo, hstep, hpc]

/-- A state about to execute `jalr x0, 0(x0)` at PC 4, used to exhibit a
step that lands on PC 0. -/
def s7 : EmuState :=
  ⟨false, ⟨List.replicate 32 0, 4, (fun a => if a = 4 then 0x67 else 0)⟩, Metrics.new⟩

theorem claim_C7_witness :
    step ⟨true, Cpu.new, Metrics.new⟩
        = (⟨true, Cpu.new, Metrics.new⟩, Except.error "cpu halted") ∧
    step s7 = ((step s7).1, Except.ok ()) ∧ (step s7).1.cpu.pc = 0 ∧
    runGo s7 1 0 = ({ (step s7).1 with halted := true }, Except.ok 1) :=
  ⟨claim_C7.1 _ rfl, rfl, rfl, claim_C7.2 s7 (step s7).1 0 0 rfl rfl⟩

/-- C10: assembling a `lui` line with exactly one operand reaches the
out-of-bounds `args[1]` access (the guard only rejects zero operands),
instead of returning the "not enough args" assembler error that the
stricter two-argument contract requires. -/
theorem claim_C10 :
    assemble_instruction (fun _ => none) "lui x1" 0 = none ∧
    assemble_instruction (fun _ => none) "lui" 0
      = some (Except.error "not enough args for lui") ∧
    assemble_lui ["x1"] = none := by
  exact ⟨by decide, by decide, by decide⟩

/-- A state about to execute `jalr x1, 1(x2)` (word `0x001100e7`) at PC 0
with `x2 = 0x100`. -/
def jalrState : EmuState :=
  ⟨false, ⟨(List.replicate 32 0).set 2 0x100, 0,
    (fun a => if a = 0 then 0xe7 else if a = 2 then 0x11 else 0)⟩, Metrics.new⟩

/-- C6: a JALR step writes PC+4 (wrapping, zero-register rule) to rd and
sets PC to the wrapping sum of `x[rs1]` and the immediate with bit 0
cleared; concretely `jalr x1, 1(x2)` with `x2 = 0x100` from PC 0 yields
PC = 0x100 (not 0x101) and `x1 = 4`. -/
theorem claim_C6 :
    (∀ (s : EmuState) (raw rd rs1 : Nat) (imm : Int), s.halted = false →
      s.cpu.read_word s.cpu.pc = Except.ok raw →
      Instruction.decode raw = ⟨Opcode.Jalr, rd, rs1, 0, imm⟩ →
      (step s).1.cpu.pc = wadd (s.cpu.read_reg rs1) (ofI32 imm) &&& 0xfffffffe ∧
      (step s).1.cpu.regs = (s.cpu.write_reg rd (wadd s.cpu.pc 4)).regs ∧
      (step s).2 = Except.ok ()) ∧
    (step jalrState).1.cpu.pc = 0x100 ∧ (step jalrState).1.cpu.read_reg 1 = 4 := by
  refine ⟨fun s raw rd rs1 imm hh hf hd => ?_, by decide, by decide⟩
  simp only [step, hh, hf, hd]
  simp

theorem claim_C6_witness :
    jalrState.halted = false ∧
    jalrState.cpu.read_word jalrState.cpu.pc = Except.ok 0x001100e7 ∧
    Instruction.decode 0x001100e7 = ⟨Opcode.Jalr, 1, 2, 0, 1⟩ ∧
    (step jalrState).1.cpu.pc = wadd (jalrState.cpu.read_reg 2) (ofI32 1) &&& 0xfffffffe :=
  ⟨rfl, by decide, by decide,
    (claim_C6.1 jalrState 0x001100e7 1 2 1 rfl (by decide) (by decide)).1⟩

/-- A state about to execute `sra x3, x1, x2` (word `0x4020d1b3`) at PC 0
with `x1 = 0x80000000` and `x2 = 4`. -/
def sraState : EmuState :=
  ⟨false, ⟨((List.replicate 32 0).set 1 0x80000000).set 2 4, 0,
    (fun a => if a = 0 then 0xb3 else if a = 1 then 0xd1
      else if a = 2 then 0x20 else if a = 3 then 0x40 else 0)⟩, Metrics.new⟩

/-- A state about to execute `srli x4, x3, 4` (word `0x0041d213`) at PC 0
with `x3 = 0x80000000`. -/
def srliState : EmuState :=
  ⟨false, ⟨(List.replicate 32 0).set 3 0x80000000, 0,
    (fun a => if a = 0 then 0x13 else if a = 1 then 0xd2
      else if a = 2 then 0x41 else 0)⟩, Metrics.new⟩

/-- C8: SRA and SRAI shift arithmetically by the low five bits of `x[rs2]`
or of the immediate, SRL and SRLI logically; SRA of `0x80000000` by 4
yields `0xf8000000` and SRLI of the same value yields `0x08000000`. -/
theorem claim_C8 :
    (∀ (s : EmuState) (raw rd rs1 rs2 : Nat), s.halted = false →
      s.cpu.read_word s.cpu.pc = Except.ok raw →
      Instruction.decode raw = ⟨Opcode.Sra, rd, rs1, rs2, 0⟩ →
      (step s).1.cpu.regs = (s.cpu.write_reg rd
        (ofI32 (asr (toI32 (s.cpu.read_reg rs1)) (s.cpu.read_reg rs2 &&& 0x1f)))).regs) ∧
    (∀ (s : EmuState) (raw rd rs1 : Nat) (imm : Int), s.halted = false →
      s.cpu.read_word s.cpu.pc = Except.ok raw →
      Instruction.decode raw = ⟨Opcode.Srai, rd, rs1, 0, imm⟩ →
      (step s).1.cpu.regs = (s.cpu.write_reg rd
        (ofI32 (asr (toI32 (s.cpu.read_reg rs1)) (ofI32 imm &&& 0x1f)))).regs) ∧
    (∀ (s : EmuState) (raw rd rs1 rs2 : Nat), s.halted = false →
      s.cpu.read_word s.cpu.pc = Except.ok raw →
      Instruction.decode raw = ⟨Opcode.Srl, rd, rs1, rs2, 0⟩ →
      (step s).1.cpu.regs = (s.cpu.write_reg rd
        (s.cpu.read_reg rs1 >>> (s.cpu.read_reg rs2 &&& 0x1f))).regs) ∧
    (∀ (s : EmuState) (raw rd rs1 : Nat) (imm : Int), s.halted = false →
      s.cpu.read_word s.cpu.pc = Except.ok raw →
      Instruction.decode raw = ⟨Opcode.Srli, rd, rs1, 0, imm⟩ →
      (step s).1.cpu.regs = (s.cpu.write_reg rd
        (s.cpu.read_reg rs1 >>> (ofI32 imm &&& 0x1f))).regs) ∧
    (step sraState).1.cpu.read_reg 3 = 0xf8000000 ∧
    (step srliState).1.cpu.read_reg 4 = 0x08000000 := by
  refine ⟨fun s raw rd rs1 rs2 hh hf hd => ?_, fun s raw rd rs1 imm hh hf hd => ?_,
    fun s raw rd rs1 rs2 hh hf hd => ?_, fun s raw rd rs1 imm hh hf hd => ?_,
    by decide, by decide⟩ <;>
  · simp only [step, hh, hf, hd]
    simp

theorem claim_C8_witness :
    sraState.cpu.read_word sraState.cpu.pc = Except.ok 0x4020d1b3 ∧
    Instruction.decode 0x4020d1b3 = ⟨Opcode.Sra, 3, 1, 2, 0⟩ ∧
    (step sraState).1.cpu.regs = (sraState.cpu.write_reg 3
      (ofI32 (asr (toI32 (sraState.cpu.read_reg 1)) (sraState.cpu.read_reg 2 &&& 0x1f)))).regs :=
  ⟨by decide, by decide,
    claim_C8.1 sraState 0x4020d1b3 3 1 2 rfl (by decide) (by decide)⟩

/-- A fresh machine over all-zero memory: the first fetch decodes word 0,
which is an illegal instruction. -/
def s0 : EmuState := ⟨false, Cpu.new, Metrics.new⟩

/-- C5 fails as stated: an illegal-instruction step does not retire, yet it
is recorded in the metrics before dispatch, so after one failing step the
total count is 1 while the retired count is 0. -/
theorem claim_C5_counterexample :
    (step s0).2 = Except.error "unknown instruction at pc=0" ∧
    (stepN 1 s0).metrics.inst_count = 1 ∧ retiredCount 1 s0 = 0 ∧
    ¬((stepN 1 s0).metrics.inst_count = retiredCount 1 s0) := by
  exact ⟨by decide, by decide, by decide, by decide⟩

/-- C5 amended: after any number of steps the metrics total equals the
number of steps that decoded an instruction (passed the halt check and the
fetch) — including steps that then fail with illegal-instruction or
memory-bounds — and the per-kind mix counts always sum to the total. -/
theorem claim_C5 (n : Nat) (s : EmuState) (h : mixSum s.metrics = s.metrics.inst_count) :
    (stepN n s).metrics.inst_count = s.metrics.inst_count + decodedCount n s ∧
    mixSum (stepN n s).metrics = (stepN n s).metrics.inst_count := by
  induction n generalizing s with
  | zero => simp [stepN, decodedCount, h]
  | succ k ih =>
    have hc := step_count s
    have hm := step_mixSum s
    have h' : mixSum (step s).1.metrics = (step s).1.metrics.inst_count := by omega
    obtain ⟨ih1, ih2⟩ := ih (step s).1 h'
    constructor
    · simp only [stepN, decodedCount]
      omega
    · simpa [stepN] using ih2

theorem claim_C5_witness :
    mixSum Metrics.new = Metrics.new.inst_count ∧
    (stepN 2 s0).metrics.inst_count = s0.metrics.inst_count + decodedCount 2 s0 :=
  ⟨by decide, (claim_C5 2 s0 (by decide)).1⟩

/-- C4 fails as stated: the assembler has no range check. A branch offset
of 8192 does not fit the signed 13-bit B field, yet the whole assembly
succeeds and emits the truncated word `0x00000063` (decoded immediate 0);
likewise `addi` with immediate 4096 is masked to 0 and emitted. -/
theorem claim_C4_counterexample :
    assemble "beq x0, x0, 8192" = some (Except.ok [0x63, 0x00, 0x00, 0x00]) ∧
    (Instruction.decode 0x63).imm = 0 ∧
    assemble_itype "addi" ["x1,", "x0,", "4096"] = Except.ok 0x93 ∧
    (Instruction.decode 0x93).imm = 0 := by
  exact ⟨by decide, by decide, by decide, by decide⟩

/-- C4 amended: the assembler performs no range check at all. Whenever the
registers parse and the target/immediate token resolves, `assemble_branch`,
`assemble_itype` and `assemble_jal` succeed for arbitrarily large offsets
and immediates, silently masking them to the field width; no
assembler-range error exists and assembly is never aborted on overflow. -/
theorem claim_C4 :
    (∀ (labels : String → Option Nat) (op a0 a1 a2 : String) (rest : List String)
      (pcv rs1 rs2 target : Nat),
      (op = "beq" ∨ op = "bne" ∨ op = "blt" ∨ op = "bge") →
      parse_reg a0 = Except.ok rs1 → parse_reg a1 = Except.ok rs2 →
      (labels a2 = some target ∨ (labels a2 = none ∧ parse_imm a2 = Except.ok target)) →
      ∃ w, assemble_branch labels op (a0 :: a1 :: a2 :: rest) pcv = Except.ok w) ∧
    (∀ (op a0 a1 a2 : String) (rest : List String) (rd rs1 imm : Nat),
      (op = "addi" ∨ op = "andi" ∨ op = "ori" ∨ op = "xori" ∨ op = "slli" ∨
        op = "srli" ∨ op = "srai") →
      parse_reg a0 = Except.ok rd → parse_reg a1 = Except.ok rs1 →
      parse_imm a2 = Except.ok imm →
      ∃ w, assemble_itype op (a0 :: a1 :: a2 :: rest) = Except.ok w) ∧
    (∀ (labels : String → Option Nat) (a0 a1 : String) (rest : List String)
      (pcv rd target : Nat),
      parse_reg a0 = Except.ok rd →
      (labels a1 = some target ∨ (labels a1 = none ∧ parse_imm a1 = Except.ok target)) →
      ∃ w, assemble_jal labels (a0 :: a1 :: rest) pcv = Except.ok w) := by
  refine ⟨fun labels op a0 a1 a2 rest pcv rs1 rs2 target hop hp0 hp1 hT => ?_,
    fun op a0 a1 a2 rest rd rs1 imm hop hp0 hp1 hp2 => ?_,
    fun labels a0 a1 rest pcv rd target hp0 hT => ?_⟩
  · have hlen : ¬(rest.length + 1 + 1 + 1 < 3) := by omega
    rcases hT with hL | ⟨hL, hI⟩
    · rcases hop with rfl | rfl | rfl | rfl <;>
        simp [assemble_branch, hlen, hp0, hp1, hL]
    · rcases hop with rfl | rfl | rfl | rfl <;>
        simp [assemble_branch, hlen, hp0, hp1, hL, hI]
  · have hlen : ¬(rest.length + 1 + 1 + 1 < 3) := by omega
    rcases hop with rfl | rfl | rfl | rfl | rfl | rfl | rfl <;>
      simp [assemble_itype, hlen, hp0, hp1, hp2]
  · have hlen : ¬(rest.length + 1 + 1 < 2) := by omega
    rcases hT with hL | ⟨hL, hI⟩
    · simp [assemble_jal, hlen, hp0, hL]
    · simp [assemble_jal, hlen, hp0, hL, hI]

theorem wsub_lt (a b : Nat) : wsub a b < 2^32 := by
  unfold wsub
  exact Nat.mod_lt _ (by norm_num)

/-- Decoding the word built by `assemble_jal` from an even offset that fits
the signed 21-bit J field recovers the offset exactly: the assembler's bit
placement (imm_11 at bit 20, imm_10_1 at bits 30:21, imm_19_12 at bits
19:12, imm_20 at bit 31) is the decoder's J-immediate layout. -/
theorem decode_jal_roundtrip (rd offset : Nat) (hrd : rd < 32) (hoff : offset < 2^32)
    (heven : offset % 2 = 0) (hrange : offset < 2^20 ∨ offset ≥ 2^32 - 2^20) :
    Instruction.decode
      ((((offset >>> 20) &&& 0x1) <<< 31) ||| (((offset >>> 12) &&& 0xff) <<< 12) |||
        (((offset >>> 11) &&& 0x1) <<< 20) ||| (((offset >>> 1) &&& 0x3ff) <<< 21) |||
        (rd <<< 7) ||| 0x6f)
      = ⟨Opcode.Jal, rd, 0, 0,
          if offset < 2^20 then (offset : Int) else (offset : Int) - 2^32⟩ := by
  have e20 : (offset >>> 20) &&& 1 = offset / 2^20 % 2 := by
    rw [Nat.shiftRight_eq_div_pow, and_1]
  have e19 : (offset >>> 12) &&& 255 = offset / 2^12 % 256 := by
    rw [Nat.shiftRight_eq_div_pow, and_255]
  have e11 : (offset >>> 11) &&& 1 = offset / 2^11 % 2 := by
    rw [Nat.shiftRight_eq_div_pow, and_1]
  have e10 : (offset >>> 1) &&& 1023 = offset / 2^1 % 1024 := by
    rw [Nat.shiftRight_eq_div_pow, and_1023]
  rw [e20, e19, e11, e10]
  rw [word_jal_nf (offset / 2^20 % 2) (offset / 2^12 % 256) (offset / 2^11 % 2)
    (offset / 2^1 % 1024) rd 0x6f (by omega) (by omega) (by omega) (by omega) hrd
    (by norm_num)]
  rw [decode_jal (offset / 2^20 % 2) (offset / 2^12 % 256) (offset / 2^11 % 2)
    (offset / 2^1 % 1024) rd (by omega) (by omega) (by omega) (by omega) hrd]
  have hs : offset / 2^20 % 2 * 2^20 + offset / 2^12 % 256 * 2^12 +
      offset / 2^11 % 2 * 2^11 + offset / 2^1 % 1024 * 2 = offset % 2097152 := by
    omega
  rw [hs, sign_extend21 (offset % 2097152) (by omega)]
  have : (if offset % 2097152 < 1048576 then ((offset % 2097152 : Nat) : Int)
      else ((offset % 2097152 : Nat) : Int) - 2097152)
      = if offset < 2^20 then (offset : Int) else (offset : Int) - 2^32 := by
    rcases hrange with h | h <;> split_ifs <;> omega
  rw [this]

/-- Decoding an assembled R-type word recovers the fields; the opcode is
the decoder's (funct3, funct7) dispatch. -/
theorem rtype_word_roundtrip (f3 f7 rd rs1 rs2 : Nat) (h3 : f3 < 8) (h7 : f7 < 128)
    (hrd : rd < 32) (h1 : rs1 < 32) (h2 : rs2 < 32) :
    Instruction.decode ((f7 <<< 25) ||| (rs2 <<< 20) ||| (rs1 <<< 15) |||
        (f3 <<< 12) ||| (rd <<< 7) ||| 0x33)
      = ⟨if f3 = 0 ∧ f7 = 0 then Opcode.Add
          else if f3 = 0 ∧ f7 = 32 then Opcode.Sub
          else if f3 = 7 ∧ f7 = 0 then Opcode.And
          else if f3 = 6 ∧ f7 = 0 then Opcode.Or
          else if f3 = 4 ∧ f7 = 0 then Opcode.Xor
          else if f3 = 1 ∧ f7 = 0 then Opcode.Sll
          else if f3 = 5 ∧ f7 = 0 then Opcode.Srl
          else if f3 = 5 ∧ f7 = 32 then Opcode.Sra
          else Opcode.Unknown, rd, rs1, rs2, 0⟩ := by
  rw [word_rs f7 rs2 rs1 f3 rd 0x33 h7 h2 h1 h3 hrd (by norm_num)]
  exact decode_rtype f7 rs2 rs1 f3 rd h7 h2 h1 h3 hrd

/-- Decoding the word built by `assemble_branch` from an even offset that
fits the signed 13-bit B field recovers the offset exactly. -/
theorem branch_word_roundtrip (f3 rs1 rs2 offset : Nat) (h3 : f3 < 8) (h1 : rs1 < 32)
    (h2 : rs2 < 32) (hoff : offset < 2^32) (heven : offset % 2 = 0)
    (hrange : offset < 4096 ∨ offset ≥ 2^32 - 4096) :
    Instruction.decode ((((offset >>> 12) &&& 0x1) <<< 31) |||
        (((offset >>> 5) &&& 0x3f) <<< 25) ||| (rs2 <<< 20) ||| (rs1 <<< 15) |||
        (f3 <<< 12) ||| (((offset >>> 1) &&& 0xf) <<< 8) |||
        (((offset >>> 11) &&& 0x1) <<< 7) ||| 0x63)
      = ⟨if f3 = 0 then Opcode.Beq
          else if f3 = 1 then Opcode.Bne
          else if f3 = 4 then Opcode.Blt
          else if f3 = 5 then Opcode.Bge
          else Opcode.Unknown, 0, rs1, rs2,
          if offset < 4096 then (offset : Int) else (offset : Int) - 2^32⟩ := by
  have e12 : (offset >>> 12) &&& 1 = offset / 2^12 % 2 := by
    rw [Nat.shiftRight_eq_div_pow, and_1]
  have e10 : (offset >>> 5) &&& 63 = offset / 2^5 % 64 := by
    rw [Nat.shiftRight_eq_div_pow, and_63]
  have e4 : (offset >>> 1) &&& 15 = offset / 2^1 % 16 := by
    rw [Nat.shiftRight_eq_div_pow, and_15]
  have e11 : (offset >>> 11) &&& 1 = offset / 2^11 % 2 := by
    rw [Nat.shiftRight_eq_div_pow, and_1]
  rw [e12, e10, e4, e11]
  rw [word_b (offset / 2^12 % 2) (offset / 2^5 % 64) rs2 rs1 f3 (offset / 2^1 % 16)
    (offset / 2^11 % 2) 0x63 (by omega) (by omega) h2 h1 h3 (by omega) (by omega)
    (by norm_num)]
  rw [decode_branch (offset / 2^12 % 2) (offset / 2^5 % 64) rs2 rs1 f3
    (offset / 2^1 % 16) (offset / 2^11 % 2) (by omega) (by omega) h2 h1 h3 (by omega)
    (by omega)]
  have hs : offset / 2^12 % 2 * 2^12 + offset / 2^11 % 2 * 2^11 +
      offset / 2^5 % 64 * 2^5 + offset / 2^1 % 16 * 2 = offset % 8192 := by
    omega
  rw [hs, sign_extend13 (offset % 8192) (by omega)]
  have : (if offset % 8192 < 4096 then ((offset % 8192 : Nat) : Int)
      else ((offset % 8192 : Nat) : Int) - 8192)
      = if offset < 4096 then (offset : Int) else (offset : Int) - 2^32 := by
    rcases hrange with h | h <;> split_ifs <;> omega
  rw [this]

/-- C3 fails as stated: the assembler's JAL field placement agrees with the
decoder. At offset 2048 (bit 11 set — the very bit the claim says is
misplaced) the assembled word has bit 20 set and decodes back to immediate
2048, so the round-trip succeeds. -/
theorem claim_C3_counterexample :
    assemble_jal (fun _ => none) ["x1,", "2048"] 0 = Except.ok 0x1000ef ∧
    Nat.testBit 0x1000ef 20 = true ∧
    Instruction.decode 0x1000ef = ⟨Opcode.Jal, 1, 0, 0, 2048⟩ := by
  exact ⟨by decide, by decide, by decide⟩

/-- C3 amended: the assembler's JAL encoder places imm_11 at bit 20,
imm_10_1 at bits 30:21, imm_19_12 at bits 19:12 and imm_20 at bit 31 —
exactly the decoder's J-immediate layout — so for every even offset that
fits the signed 21-bit field the JAL round-trip succeeds; it can fail only
for odd or out-of-range offsets, which the assembler accepts unchecked. -/
theorem claim_C3 :
    ∀ (labels : String → Option Nat) (a0 a1 : String) (rest : List String)
      (pcv rd target : Nat),
      parse_reg a0 = Except.ok rd → rd < 32 →
      (labels a1 = some target ∨ (labels a1 = none ∧ parse_imm a1 = Except.ok target)) →
      wsub target pcv % 2 = 0 →
      (wsub target pcv < 2^20 ∨ wsub target pcv ≥ 2^32 - 2^20) →
      ∃ w, assemble_jal labels (a0 :: a1 :: rest) pcv = Except.ok w ∧
        Instruction.decode w = ⟨Opcode.Jal, rd, 0, 0,
          if wsub target pcv < 2^20 then (wsub target pcv : Int)
          else (wsub target pcv : Int) - 2^32⟩ := by
  intro labels a0 a1 rest pcv rd target hp0 hrd hT heven hrange
  have hlen : ¬(rest.length + 1 + 1 < 2) := by omega
  have hA : assemble_jal labels (a0 :: a1 :: rest) pcv = Except.ok
      ((((wsub target pcv >>> 20) &&& 0x1) <<< 31) |||
        (((wsub target pcv >>> 12) &&& 0xff) <<< 12) |||
        (((wsub target pcv >>> 11) &&& 0x1) <<< 20) |||
        (((wsub target pcv >>> 1) &&& 0x3ff) <<< 21) ||| (rd <<< 7) ||| 0x6f) := by
    rcases hT with hL | ⟨hL, hI⟩
    · simp [assemble_jal, hlen, hp0, hL]
    · simp [assemble_jal, hlen, hp0, hL, hI]
  exact ⟨_, hA,
    decode_jal_roundtrip rd (wsub target pcv) hrd (wsub_lt target pcv) heven hrange⟩

theorem claim_C3_witness :
    ∃ w, assemble_jal (fun _ => none) ["x1,", "2048"] 0 = Except.ok w ∧
      Instruction.decode w = ⟨Opcode.Jal, 1, 0, 0,
        if wsub 2048 0 < 2^20 then (wsub 2048 0 : Int)
        else (wsub 2048 0 : Int) - 2^32⟩ :=
  claim_C3 (fun _ => none) "x1," "2048" [] 0 1 2048 (by decide) (by decide)
    (Or.inr ⟨rfl, by decide⟩) (by decide) (Or.inl (by decide))

/-- Round trip for the eight R-type mnemonics. -/
theorem rt_rtype :
    ∀ (op : String) (kind : Opcode), (op, kind) ∈
        [("add", Opcode.Add), ("sub", Opcode.Sub), ("and", Opcode.And),
         ("or", Opcode.Or), ("xor", Opcode.Xor), ("sll", Opcode.Sll),
         ("srl", Opcode.Srl), ("sra", Opcode.Sra)] →
      ∀ (a0 a1 a2 : String) (rest : List String) (rd rs1 rs2 : Nat),
      parse_reg a0 = Except.ok rd → rd < 32 →
      parse_reg a1 = Except.ok rs1 → rs1 < 32 →
      parse_reg a2 = Except.ok rs2 → rs2 < 32 →
      ∃ w, assemble_rtype op (a0 :: a1 :: a2 :: rest) = Except.ok w ∧
        Instruction.decode w = ⟨kind, rd, rs1, rs2, 0⟩ := by
  intro op kind hmem a0 a1 a2 rest rd rs1 rs2 hp0 hrd hp1 h1 hp2 h2
  have hlen : ¬(rest.length + 1 + 1 + 1 < 3) := by omega
  simp only [List.mem_cons, List.mem_singleton, Prod.mk.injEq, List.not_mem_nil,
    or_false] at hmem
  rcases hmem with h | h | h | h | h | h | h | h <;> obtain ⟨rfl, rfl⟩ := h
  · have hA : assemble_rtype "add" (a0 :: a1 :: a2 :: rest) = Except.ok
        ((0x00 <<< 25) ||| (rs2 <<< 20) ||| (rs1 <<< 15) ||| (0x0 <<< 12) |||
          (rd <<< 7) ||| 0x33) := by
      simp [assemble_rtype, hlen, hp0, hp1, hp2]
    exact ⟨_, hA, by
      rw [rtype_word_roundtrip 0x0 0x00 rd rs1 rs2 (by norm_num) (by norm_num)
        hrd h1 h2]
      simp⟩
  · have hA : assemble_rtype "sub" (a0 :: a1 :: a2 :: rest) = Except.ok
        ((0x20 <<< 25) ||| (rs2 <<< 20) ||| (rs1 <<< 15) ||| (0x0 <<< 12) |||
          (rd <<< 7) ||| 0x33) := by
      simp [assemble_rtype, hlen, hp0, hp1, hp2]
    exact ⟨_, hA, by
      rw [rtype_word_roundtrip 0x0 0x20 rd rs1 rs2 (by norm_num) (by norm_num)
        hrd h1 h2]
      simp⟩
  · have hA : assemble_rtype "and" (a0 :: a1 :: a2 :: rest) = Except.ok
        ((0x00 <<< 25) ||| (rs2 <<< 20) ||| (rs1 <<< 15) ||| (0x7 <<< 12) |||
          (rd <<< 7) ||| 0x33) := by
      simp [assemble_rtype, hlen, hp0, hp1, hp2]
    exact ⟨_, hA, by
      rw [rtype_word_roundtrip 0x7 0x00 rd rs1 rs2 (by norm_num) (by norm_num)
        hrd h1 h2]
      simp⟩
  · have hA : assemble_rtype "or" (a0 :: a1 :: a2 :: rest) = Except.ok
        ((0x00 <<< 25) ||| (rs2 <<< 20) ||| (rs1 <<< 15) ||| (0x6 <<< 12) |||
          (rd <<< 7) ||| 0x33) := by
      simp [assemble_rtype, hlen, hp0, hp1, hp2]
    exact ⟨_, hA, by
      rw [rtype_word_roundtrip 0x6 0x00 rd rs1 rs2 (by norm_num) (by norm_num)
        hrd h1 h2]
      simp⟩
  · have hA : assemble_rtype "xor" (a0 :: a1 :: a2 :: rest) = Except.ok
        ((0x00 <<< 25) ||| (rs2 <<< 20) ||| (rs1 <<< 15) ||| (0x4 <<< 12) |||
          (rd <<< 7) ||| 0x33) := by
      simp [assemble_rtype, hlen, hp0, hp1, hp2]
    exact ⟨_, hA, by
      rw [rtype_word_roundtrip 0x4 0x00 rd rs1 rs2 (by norm_num) (by norm_num)
        hrd h1 h2]
      simp⟩
  · have hA : assemble_rtype "sll" (a0 :: a1 :: a2 :: rest) = Except.ok
        ((0x00 <<< 25) ||| (rs2 <<< 20) ||| (rs1 <<< 15) ||| (0x1 <<< 12) |||
          (rd <<< 7) ||| 0x33) := by
      simp [assemble_rtype, hlen, hp0, hp1, hp2]
    exact ⟨_, hA, by
      rw [rtype_word_roundtrip 0x1 0x00 rd rs1 rs2 (by norm_num) (by norm_num)
        hrd h1 h2]
      simp⟩
  · have hA : assemble_rtype "srl" (a0 :: a1 :: a2 :: rest) = Except.ok
        ((0x00 <<< 25) ||| (rs2 <<< 20) ||| (rs1 <<< 15) ||| (0x5 <<< 12) |||
          (rd <<< 7) ||| 0x33) := by
      simp [assemble_rtype, hlen, hp0, hp1, hp2]
    exact ⟨_, hA, by
      rw [rtype_word_roundtrip 0x5 0x00 rd rs1 rs2 (by norm_num) (by norm_num)
        hrd h1 h2]
      simp⟩
  · have hA : assemble_rtype "sra" (a0 :: a1 :: a2 :: rest) = Except.ok
        ((0x20 <<< 25) ||| (rs2 <<< 20) ||| (rs1 <<< 15) ||| (0x5 <<< 12) |||
          (rd <<< 7) ||| 0x33) := by
      simp [assemble_rtype, hlen, hp0, hp1, hp2]
    exact ⟨_, hA, by
      rw [rtype_word_roundtrip 0x5 0x20 rd rs1 rs2 (by norm_num) (by norm_num)
        hrd h1 h2]
      simp⟩

/-- Round trip for the four register-immediate arithmetic/logical
mnemonics, for immediates that fit the signed 12-bit field. -/
theorem rt_itype_arith :
    ∀ (op : String) (f3 : Nat) (kind : Opcode), (op, f3, kind) ∈
        [("addi", 0, Opcode.Addi), ("andi", 7, Opcode.Andi),
         ("ori", 6, Opcode.Ori), ("xori", 4, Opcode.Xori)] →
      ∀ (a0 a1 a2 : String) (rest : List String) (rd rs1 imm : Nat),
      parse_reg a0 = Except.ok rd → rd < 32 →
      parse_reg a1 = Except.ok rs1 → rs1 < 32 →
      parse_imm a2 = Except.ok imm →
      (imm < 2048 ∨ (imm < 2^32 ∧ imm ≥ 2^32 - 2048)) →
      ∃ w, assemble_itype op (a0 :: a1 :: a2 :: rest) = Except.ok w ∧
        Instruction.decode w = ⟨kind, rd, rs1, 0,
          if imm < 2048 then (imm : Int) else (imm : Int) - 2^32⟩ := by
  intro op f3 kind hmem a0 a1 a2 rest rd rs1 imm hp0 hrd hp1 h1 hp2 hfit
  have hlen : ¬(rest.length + 1 + 1 + 1 < 3) := by omega
  simp only [List.mem_cons, List.mem_singleton, Prod.mk.injEq, List.not_mem_nil,
    or_false] at hmem
  rcases hmem with h | h | h | h <;> obtain ⟨rfl, rfl, rfl⟩ := h
  · have hA : assemble_itype "addi" (a0 :: a1 :: a2 :: rest) = Except.ok
        ((((imm &&& 0xfff)) <<< 20) ||| (rs1 <<< 15) ||| (0x0 <<< 12) |||
          (rd <<< 7) ||| 0x13) := by
      simp [assemble_itype, hlen, hp0, hp1, hp2]
    refine ⟨_, hA, ?_⟩
    rw [and_4095]
    rw [word_i (imm % 4096) rs1 0x0 rd 0x13 (by omega) h1 (by norm_num) hrd
      (by norm_num)]
    rw [decode_itype (imm % 4096) rs1 0x0 rd (by omega) h1 (by norm_num) hrd]
    rw [sign_extend12 (imm % 4096) (by omega)]
    rw [show (if imm % 4096 < 2048 then ((imm % 4096 : Nat) : Int)
        else ((imm % 4096 : Nat) : Int) - 4096)
        = if imm < 2048 then (imm : Int) else (imm : Int) - 2^32 from by
      rcases hfit with h | ⟨h32, h⟩ <;> split_ifs <;> omega]
    simp
  · have hA : assemble_itype "andi" (a0 :: a1 :: a2 :: rest) = Except.ok
        ((((imm &&& 0xfff)) <<< 20) ||| (rs1 <<< 15) ||| (0x7 <<< 12) |||
          (rd <<< 7) ||| 0x13) := by
      simp [assemble_itype, hlen, hp0, hp1, hp2]
    refine ⟨_, hA, ?_⟩
    rw [and_4095]
    rw [word_i (imm % 4096) rs1 0x7 rd 0x13 (by omega) h1 (by norm_num) hrd
      (by norm_num)]
    rw [decode_itype (imm % 4096) rs1 0x7 rd (by omega) h1 (by norm_num) hrd]
    rw [sign_extend12 (imm % 4096) (by omega)]
    rw [show (if imm % 4096 < 2048 then ((imm % 4096 : Nat) : Int)
        else ((imm % 4096 : Nat) : Int) - 4096)
        = if imm < 2048 then (imm : Int) else (imm : Int) - 2^32 from by
      rcases hfit with h | ⟨h32, h⟩ <;> split_ifs <;> omega]
    simp
  · have hA : assemble_itype "ori" (a0 :: a1 :: a2 :: rest) = Except.ok
        ((((imm &&& 0xfff)) <<< 20) ||| (rs1 <<< 15) ||| (0x6 <<< 12) |||
          (rd <<< 7) ||| 0x13) := by
      simp [assemble_itype, hlen, hp0, hp1, hp2]
    refine ⟨_, hA, ?_⟩
    rw [and_4095]
    rw [word_i (imm % 4096) rs1 0x6 rd 0x13 (by omega) h1 (by norm_num) hrd
      (by norm_num)]
    rw [decode_itype (imm % 4096) rs1 0x6 rd (by omega) h1 (by norm_num) hrd]
    rw [sign_extend12 (imm % 4096) (by omega)]
    rw [show (if imm % 4096 < 2048 then ((imm % 4096 : Nat) : Int)
        else ((imm % 4096 : Nat) : Int) - 4096)
        = if imm < 2048 then (imm : Int) else (imm : Int) - 2^32 from by
      rcases hfit with h | ⟨h32, h⟩ <;> split_ifs <;> omega]
    simp
  · have hA : assemble_itype "xori" (a0 :: a1 :: a2 :: rest) = Except.ok
        ((((imm &&& 0xfff)) <<< 20) ||| (rs1 <<< 15) ||| (0x4 <<< 12) |||
          (rd <<< 7) ||| 0x13) := by
      simp [assemble_itype, hlen, hp0, hp1, hp2]
    refine ⟨_, hA, ?_⟩
    rw [and_4095]
    rw [word_i (imm % 4096) rs1 0x4 rd 0x13 (by omega) h1 (by norm_num) hrd
      (by norm_num)]
    rw [decode_itype (imm % 4096) rs1 0x4 rd (by omega) h1 (by norm_num) hrd]
    rw [sign_extend12 (imm % 4096) (by omega)]
    rw [show (if imm % 4096 < 2048 then ((imm % 4096 : Nat) : Int)
        else ((imm % 4096 : Nat) : Int) - 4096)
        = if imm < 2048 then (imm : Int) else (imm : Int) - 2^32 from by
      rcases hfit with h | ⟨h32, h⟩ <;> split_ifs <;> omega]
    simp

/-- Round trip for `slli` and `srli` with a canonical shift amount 0..31. -/
theorem rt_shift :
    ∀ (op : String) (f3 : Nat) (kind : Opcode), (op, f3, kind) ∈
        [("slli", 1, Opcode.Slli), ("srli", 5, Opcode.Srli)] →
      ∀ (a0 a1 a2 : String) (rest : List String) (rd rs1 imm : Nat),
      parse_reg a0 = Except.ok rd → rd < 32 →
      parse_reg a1 = Except.ok rs1 → rs1 < 32 →
      parse_imm a2 = Except.ok imm → imm < 32 →
      ∃ w, assemble_itype op (a0 :: a1 :: a2 :: rest) = Except.ok w ∧
        Instruction.decode w = ⟨kind, rd, rs1, 0, (imm : Int)⟩ := by
  intro op f3 kind hmem a0 a1 a2 rest rd rs1 imm hp0 hrd hp1 h1 hp2 himm
  have hlen : ¬(rest.length + 1 + 1 + 1 < 3) := by omega
  simp only [List.mem_cons, List.mem_singleton, Prod.mk.injEq, List.not_mem_nil,
    or_false] at hmem
  rcases hmem with h | h <;> obtain ⟨rfl, rfl, rfl⟩ := h
  · have hA : assemble_itype "slli" (a0 :: a1 :: a2 :: rest) = Except.ok
        (((imm &&& 0xfff) <<< 20) ||| (rs1 <<< 15) ||| (0x1 <<< 12) |||
          (rd <<< 7) ||| 0x13) := by
      simp [assemble_itype, hlen, hp0, hp1, hp2]
    refine ⟨_, hA, ?_⟩
    rw [and_4095, Nat.mod_eq_of_lt (show imm < 4096 by omega)]
    rw [word_i imm rs1 0x1 rd 0x13 (by omega) h1 (by norm_num) hrd (by norm_num)]
    rw [decode_itype imm rs1 0x1 rd (by omega) h1 (by norm_num) hrd]
    rw [sign_extend12 imm (by omega)]
    simp [show imm / 32 = 0 from Nat.div_eq_of_lt (by omega),
      show imm < 2048 from by omega]
  · have hA : assemble_itype "srli" (a0 :: a1 :: a2 :: rest) = Except.ok
        (((imm &&& 0xfff) <<< 20) ||| (rs1 <<< 15) ||| (0x5 <<< 12) |||
          (rd <<< 7) ||| 0x13) := by
      simp [assemble_itype, hlen, hp0, hp1, hp2]
    refine ⟨_, hA, ?_⟩
    rw [and_4095, Nat.mod_eq_of_lt (show imm < 4096 by omega)]
    rw [word_i imm rs1 0x5 rd 0x13 (by omega) h1 (by norm_num) hrd (by norm_num)]
    rw [decode_itype imm rs1 0x5 rd (by omega) h1 (by norm_num) hrd]
    rw [sign_extend12 imm (by omega)]
    simp [show imm / 32 = 0 from Nat.div_eq_of_lt (by omega),
      show imm < 2048 from by omega]

/-- Round trip for `srai` with a canonical shift amount 0..31: the decoded
immediate carries the embedded funct7 bit (value `imm + 1024`) but agrees
with the written shift amount modulo 32. -/
theorem rt_srai :
    ∀ (a0 a1 a2 : String) (rest : List String) (rd rs1 imm : Nat),
      parse_reg a0 = Except.ok rd → rd < 32 →
      parse_reg a1 = Except.ok rs1 → rs1 < 32 →
      parse_imm a2 = Except.ok imm → imm < 32 →
      ∃ w, assemble_itype "srai" (a0 :: a1 :: a2 :: rest) = Except.ok w ∧
        Instruction.decode w = ⟨Opcode.Srai, rd, rs1, 0, (imm : Int) + 1024⟩ ∧
        ((imm : Int) + 1024) % 32 = (imm : Int) % 32 := by
  intro a0 a1 a2 rest rd rs1 imm hp0 hrd hp1 h1 hp2 himm
  have hlen : ¬(rest.length + 1 + 1 + 1 < 3) := by omega
  have hA : assemble_itype "srai" (a0 :: a1 :: a2 :: rest) = Except.ok
      ((((imm &&& 0xfff) ||| 0x400) <<< 20) ||| (rs1 <<< 15) ||| (0x5 <<< 12) |||
        (rd <<< 7) ||| 0x13) := by
    simp [assemble_itype, hlen, hp0, hp1, hp2]
  refine ⟨_, hA, ?_, by omega⟩
  rw [and_4095, Nat.mod_eq_of_lt (show imm < 4096 by omega)]
  rw [Nat.lor_comm imm 1024]
  rw [lor_eq_add 10 1024 imm (by norm_num) (by omega)]
  rw [word_i (1024 + imm) rs1 0x5 rd 0x13 (by omega) h1 (by norm_num) hrd
    (by norm_num)]
  rw [decode_itype (1024 + imm) rs1 0x5 rd (by omega) h1 (by norm_num) hrd]
  rw [sign_extend12 (1024 + imm) (by omega)]
  simp [show (1024 + imm) / 32 = 32 from by omega,
    show 1024 + imm < 2048 from by omega]
  ring

/-- Round trip for `lw`, for displacement immediates fitting the signed
12-bit field. -/
theorem rt_load :
    ∀ (a0 a1 : String) (rest : List String) (rd rs1 imm : Nat),
      parse_reg a0 = Except.ok rd → rd < 32 →
      parse_mem_operand a1 = Except.ok (imm, rs1) → rs1 < 32 →
      (imm < 2048 ∨ (imm < 2^32 ∧ imm ≥ 2^32 - 2048)) →
      ∃ w, assemble_load (a0 :: a1 :: rest) = Except.ok w ∧
        Instruction.decode w = ⟨Opcode.Lw, rd, rs1, 0,
          if imm < 2048 then (imm : Int) else (imm : Int) - 2^32⟩ := by
  intro a0 a1 rest rd rs1 imm hp0 hrd hp1 h1 hfit
  have hlen : ¬(rest.length + 1 + 1 < 2) := by omega
  have hA : assemble_load (a0 :: a1 :: rest) = Except.ok
      (((imm &&& 0xfff) <<< 20) ||| (rs1 <<< 15) ||| (0x2 <<< 12) |||
        (rd <<< 7) ||| 0x03) := by
    simp [assemble_load, hlen, hp0, hp1]
  refine ⟨_, hA, ?_⟩
  rw [and_4095]
  rw [word_i (imm % 4096) rs1 0x2 rd 0x03 (by omega) h1 (by norm_num) hrd
    (by norm_num)]
  rw [decode_load (imm % 4096) rs1 rd (by omega) h1 hrd]
  rw [sign_extend12 (imm % 4096) (by omega)]
  rw [show (if imm % 4096 < 2048 then ((imm % 4096 : Nat) : Int)
      else ((imm % 4096 : Nat) : Int) - 4096)
      = if imm < 2048 then (imm : Int) else (imm : Int) - 2^32 from by
    rcases hfit with h | ⟨h32, h⟩ <;> split_ifs <;> omega]

/-- Round trip for `sw`, for displacement immediates fitting the signed
12-bit field. -/
theorem rt_store :
    ∀ (a0 a1 : String) (rest : List String) (rs2 rs1 imm : Nat),
      parse_reg a0 = Except.ok rs2 → rs2 < 32 →
      parse_mem_operand a1 = Except.ok (imm, rs1) → rs1 < 32 →
      (imm < 2048 ∨ (imm < 2^32 ∧ imm ≥ 2^32 - 2048)) →
      ∃ w, assemble_store (a0 :: a1 :: rest) = Except.ok w ∧
        Instruction.decode w = ⟨Opcode.Sw, 0, rs1, rs2,
          if imm < 2048 then (imm : Int) else (imm : Int) - 2^32⟩ := by
  intro a0 a1 rest rs2 rs1 imm hp0 h2 hp1 h1 hfit
  have hlen : ¬(rest.length + 1 + 1 < 2) := by omega
  have hA : assemble_store (a0 :: a1 :: rest) = Except.ok
      ((((imm >>> 5) &&& 0x7f) <<< 25) ||| (rs2 <<< 20) ||| (rs1 <<< 15) |||
        (0x2 <<< 12) ||| ((imm &&& 0x1f) <<< 7) ||| 0x23) := by
    simp [assemble_store, hlen, hp0, hp1]
  refine ⟨_, hA, ?_⟩
  rw [and_31, show imm >>> 5 &&& 127 = imm / 2^5 % 128 from by
    rw [Nat.shiftRight_eq_div_pow, and_127]]
  rw [word_rs (imm / 2^5 % 128) rs2 rs1 0x2 (imm % 32) 0x23 (by omega) h2 h1
    (by norm_num) (by omega) (by norm_num)]
  rw [decode_sw (imm / 2^5 % 128) rs2 rs1 (imm % 32) (by omega) h2 h1 (by omega)]
  rw [show imm / 2^5 % 128 * 32 + imm % 32 = imm % 4096 from by omega]
  rw [sign_extend12 (imm % 4096) (by omega)]
  rw [show (if imm % 4096 < 2048 then ((imm % 4096 : Nat) : Int)
      else ((imm % 4096 : Nat) : Int) - 4096)
      = if imm < 2048 then (imm : Int) else (imm : Int) - 2^32 from by
    rcases hfit with h | ⟨h32, h⟩ <;> split_ifs <;> omega]

/-- Round trip for `lui`, for operands below 2^20. -/
theorem rt_lui :
    ∀ (a0 a1 : String) (rest : List String) (rd v : Nat),
      parse_reg a0 = Except.ok rd → rd < 32 →
      parse_imm a1 = Except.ok v → v < 1048576 →
      ∃ w, assemble_lui (a0 :: a1 :: rest) = some (Except.ok w) ∧
        Instruction.decode w = ⟨Opcode.Lui, rd, 0, 0, toI32 (v * 4096)⟩ := by
  intro a0 a1 rest rd v hp0 hrd hp1 hv
  have hA : assemble_lui (a0 :: a1 :: rest) = some (Except.ok
      (((v &&& 0xfffff) <<< 12) ||| (rd <<< 7) ||| 0x37)) := by
    simp [assemble_lui, hp0, hp1]
  refine ⟨_, hA, ?_⟩
  rw [and_fffff, Nat.mod_eq_of_lt hv]
  rw [word_u v rd 0x37 hv hrd (by norm_num)]
  exact decode_lui v rd hv hrd

/-- Round trip for `auipc`, for operands below 2^20. -/
theorem rt_auipc :
    ∀ (a0 a1 : String) (rest : List String) (rd v : Nat),
      parse_reg a0 = Except.ok rd → rd < 32 →
      parse_imm a1 = Except.ok v → v < 1048576 →
      ∃ w, assemble_auipc (a0 :: a1 :: rest) = Except.ok w ∧
        Instruction.decode w = ⟨Opcode.Auipc, rd, 0, 0, toI32 (v * 4096)⟩ := by
  intro a0 a1 rest rd v hp0 hrd hp1 hv
  have hlen : ¬(rest.length + 1 + 1 < 2) := by omega
  have hA : assemble_auipc (a0 :: a1 :: rest) = Except.ok
      (((v &&& 0xfffff) <<< 12) ||| (rd <<< 7) ||| 0x17) := by
    simp [assemble_auipc, hlen, hp0, hp1]
  refine ⟨_, hA, ?_⟩
  rw [and_fffff, Nat.mod_eq_of_lt hv]
  rw [word_u v rd 0x17 hv hrd (by norm_num)]
  exact decode_auipc v rd hv hrd

/-- Round trip for `jalr`, for displacement immediates fitting the signed
12-bit field. -/
theorem rt_jalr :
    ∀ (a0 a1 : String) (rest : List String) (rd rs1 imm : Nat),
      parse_reg a0 = Except.ok rd → rd < 32 →
      parse_mem_operand a1 = Except.ok (imm, rs1) → rs1 < 32 →
      (imm < 2048 ∨ (imm < 2^32 ∧ imm ≥ 2^32 - 2048)) →
      ∃ w, assemble_jalr (a0 :: a1 :: rest) = Except.ok w ∧
        Instruction.decode w = ⟨Opcode.Jalr, rd, rs1, 0,
          if imm < 2048 then (imm : Int) else (imm : Int) - 2^32⟩ := by
  intro a0 a1 rest rd rs1 imm hp0 hrd hp1 h1 hfit
  have hlen : ¬(rest.length + 1 + 1 < 2) := by omega
  have hA : assemble_jalr (a0 :: a1 :: rest) = Except.ok
      (((imm &&& 0xfff) <<< 20) ||| (rs1 <<< 15) ||| (rd <<< 7) ||| 0x67) := by
    simp [assemble_jalr, hlen, hp0, hp1]
  refine ⟨_, hA, ?_⟩
  rw [and_4095]
  rw [word_jalr_nf (imm % 4096) rs1 rd 0x67 (by omega) h1 hrd (by norm_num)]
  rw [decode_jalr (imm % 4096) rs1 rd (by omega) h1 hrd]
  rw [sign_extend12 (imm % 4096) (by omega)]
  rw [show (if imm % 4096 < 2048 then ((imm % 4096 : Nat) : Int)
      else ((imm % 4096 : Nat) : Int) - 4096)
      = if imm < 2048 then (imm : Int) else (imm : Int) - 2^32 from by
    rcases hfit with h | ⟨h32, h⟩ <;> split_ifs <;> omega]

/-- Round trip for the four branch mnemonics, for even resolved offsets
fitting the signed 13-bit field. -/
theorem rt_branch :
    ∀ (op : String) (f3 : Nat) (kind : Opcode), (op, f3, kind) ∈
        [("beq", 0, Opcode.Beq), ("bne", 1, Opcode.Bne),
         ("blt", 4, Opcode.Blt), ("bge", 5, Opcode.Bge)] →
      ∀ (labels : String → Option Nat) (a0 a1 a2 : String) (rest : List String)
        (pcv rs1 rs2 target : Nat),
      parse_reg a0 = Except.ok rs1 → rs1 < 32 →
      parse_reg a1 = Except.ok rs2 → rs2 < 32 →
      (labels a2 = some target ∨ (labels a2 = none ∧ parse_imm a2 = Except.ok target)) →
      wsub target pcv % 2 = 0 →
      (wsub target pcv < 4096 ∨ wsub target pcv ≥ 2^32 - 4096) →
      ∃ w, assemble_branch labels op (a0 :: a1 :: a2 :: rest) pcv = Except.ok w ∧
        Instruction.decode w = ⟨kind, 0, rs1, rs2,
          if wsub target pcv < 4096 then (wsub target pcv : Int)
          else (wsub target pcv : Int) - 2^32⟩ := by
  intro op f3 kind hmem labels a0 a1 a2 rest pcv rs1 rs2 target hp0 h1 hp1 h2 hT
    heven hrange
  have hlen : ¬(rest.length + 1 + 1 + 1 < 3) := by omega
  simp only [List.mem_cons, List.mem_singleton, Prod.mk.injEq, List.not_mem_nil,
    or_false] at hmem
  rcases hmem with h | h | h | h <;> obtain ⟨rfl, rfl, rfl⟩ := h
  · have hA : assemble_branch labels "beq" (a0 :: a1 :: a2 :: rest) pcv = Except.ok
        ((((wsub target pcv >>> 12) &&& 0x1) <<< 31) |||
          (((wsub target pcv >>> 5) &&& 0x3f) <<< 25) ||| (rs2 <<< 20) |||
          (rs1 <<< 15) ||| (0x0 <<< 12) |||
          (((wsub target pcv >>> 1) &&& 0xf) <<< 8) |||
          (((wsub target pcv >>> 11) &&& 0x1) <<< 7) ||| 0x63) := by
      rcases hT with hL | ⟨hL, hI⟩
      · simp [assemble_branch, hlen, hp0, hp1, hL]
      · simp [assemble_branch, hlen, hp0, hp1, hL, hI]
    refine ⟨_, hA, ?_⟩
    rw [branch_word_roundtrip 0x0 rs1 rs2 (wsub target pcv) (by norm_num) h1 h2
      (wsub_lt target pcv) heven hrange]
    simp
  · have hA : assemble_branch labels "bne" (a0 :: a1 :: a2 :: rest) pcv = Except.ok
        ((((wsub target pcv >>> 12) &&& 0x1) <<< 31) |||
          (((wsub target pcv >>> 5) &&& 0x3f) <<< 25) ||| (rs2 <<< 20) |||
          (rs1 <<< 15) ||| (0x1 <<< 12) |||
          (((wsub target pcv >>> 1) &&& 0xf) <<< 8) |||
          (((wsub target pcv >>> 11) &&& 0x1) <<< 7) ||| 0x63) := by
      rcases hT with hL | ⟨hL, hI⟩
      · simp [assemble_branch, hlen, hp0, hp1, hL]
      · simp [assemble_branch, hlen, hp0, hp1, hL, hI]
    refine ⟨_, hA, ?_⟩
    rw [branch_word_roundtrip 0x1 rs1 rs2 (wsub target pcv) (by norm_num) h1 h2
      (wsub_lt target pcv) heven hrange]
    simp
  · have hA : assemble_branch labels "blt" (a0 :: a1 :: a2 :: rest) pcv = Except.ok
        ((((wsub target pcv >>> 12) &&& 0x1) <<< 31) |||
          (((wsub target pcv >>> 5) &&& 0x3f) <<< 25) ||| (rs2 <<< 20) |||
          (rs1 <<< 15) ||| (0x4 <<< 12) |||
          (((wsub target pcv >>> 1) &&& 0xf) <<< 8) |||
          (((wsub target pcv >>> 11) &&& 0x1) <<< 7) ||| 0x63) := by
      rcases hT with hL | ⟨hL, hI⟩
      · simp [assemble_branch, hlen, hp0, hp1, hL]
      · simp [assemble_branch, hlen, hp0, hp1, hL, hI]
    refine ⟨_, hA, ?_⟩
    rw [branch_word_roundtrip 0x4 rs1 rs2 (wsub target pcv) (by norm_num) h1 h2
      (wsub_lt target pcv) heven hrange]
    simp
  · have hA : assemble_branch labels "bge" (a0 :: a1 :: a2 :: rest) pcv = Except.ok
        ((((wsub target pcv >>> 12) &&& 0x1) <<< 31) |||
          (((wsub target pcv >>> 5) &&& 0x3f) <<< 25) ||| (rs2 <<< 20) |||
          (rs1 <<< 15) ||| (0x5 <<< 12) |||
          (((wsub target pcv >>> 1) &&& 0xf) <<< 8) |||
          (((wsub target pcv >>> 11) &&& 0x1) <<< 7) ||| 0x63) := by
      rcases hT with hL | ⟨hL, hI⟩
      · simp [assemble_branch, hlen, hp0, hp1, hL]
      · simp [assemble_branch, hlen, hp0, hp1, hL, hI]
    refine ⟨_, hA, ?_⟩
    rw [branch_word_roundtrip 0x5 rs1 rs2 (wsub target pcv) (by norm_num) h1 h2
      (wsub_lt target pcv) heven hrange]
    simp

/-- Round trip for `jal`, for even resolved offsets fitting the signed
21-bit field. This is the statement of claim C3 again, needed here as the
JAL case of the round-trip law. -/
theorem rt_jal :
    ∀ (labels : String → Option Nat) (a0 a1 : String) (rest : List String)
      (pcv rd target : Nat),
      parse_reg a0 = Except.ok rd → rd < 32 →
      (labels a1 = some target ∨ (labels a1 = none ∧ parse_imm a1 = Except.ok target)) →
      wsub target pcv % 2 = 0 →
      (wsub target pcv < 2^20 ∨ wsub target pcv ≥ 2^32 - 2^20) →
      ∃ w, assemble_jal labels (a0 :: a1 :: rest) pcv = Except.ok w ∧
        Instruction.decode w = ⟨Opcode.Jal, rd, 0, 0,
          if wsub target pcv < 2^20 then (wsub target pcv : Int)
          else (wsub target pcv : Int) - 2^32⟩ := by
  intro labels a0 a1 rest pcv rd target hp0 hrd hT heven hrange
  have hlen : ¬(rest.length + 1 + 1 < 2) := by omega
  have hA : assemble_jal labels (a0 :: a1 :: rest) pcv = Except.ok
      ((((wsub target pcv >>> 20) &&& 0x1) <<< 31) |||
        (((wsub target pcv >>> 12) &&& 0xff) <<< 12) |||
        (((wsub target pcv >>> 11) &&& 0x1) <<< 20) |||
        (((wsub target pcv >>> 1) &&& 0x3ff) <<< 21) ||| (rd <<< 7) ||| 0x6f) := by
    rcases hT with hL | ⟨hL, hI⟩
    · simp [assemble_jal, hlen, hp0, hL]
    · simp [assemble_jal, hlen, hp0, hL, hI]
  exact ⟨_, hA,
    decode_jal_roundtrip rd (wsub target pcv) hrd (wsub_lt target pcv) heven hrange⟩

/-- C1 fails as stated: `addi x1, x0, 4096` is a line the assembler
accepts (4096 is a well-formed immediate token), yet the immediate does not
fit the signed 12-bit field, is silently masked, and decodes back as 0. -/
theorem claim_C1_counterexample :
    assemble_instruction (fun _ => none) "addi x1, x0, 4096" 0
      = some (Except.ok 0x93) ∧
    parse_imm "4096" = Except.ok 4096 ∧
    Instruction.decode 0x93 = ⟨Opcode.Addi, 1, 0, 0, 0⟩ ∧
    (Instruction.decode 0x93).imm ≠ 4096 := by
  exact ⟨by decide, by decide, by decide, by decide⟩

/-- C1 amended: the assemble/decode round trip holds for every mnemonic
with operands that parse, register indices 0..31, and immediates within the
encoded field — signed 12-bit immediates for I/S/JALR forms, canonical
shift amounts 0..31 (srai's decoded immediate agreeing modulo 32), operands
below 2^20 for LUI/AUIPC, and even resolved offsets fitting the signed
13- or 21-bit fields for branches/JAL. Out-of-range values, which the
assembler also accepts, are silently truncated (see the counterexample). -/
theorem claim_C1 :
    (∀ (op : String) (kind : Opcode), (op, kind) ∈
        [("add", Opcode.Add), ("sub", Opcode.Sub), ("and", Opcode.And),
         ("or", Opcode.Or), ("xor", Opcode.Xor), ("sll", Opcode.Sll),
         ("srl", Opcode.Srl), ("sra", Opcode.Sra)] →
      ∀ (a0 a1 a2 : String) (rest : List String) (rd rs1 rs2 : Nat),
      parse_reg a0 = Except.ok rd → rd < 32 →
      parse_reg a1 = Except.ok rs1 → rs1 < 32 →
      parse_reg a2 = Except.ok rs2 → rs2 < 32 →
      ∃ w, assemble_rtype op (a0 :: a1 :: a2 :: rest) = Except.ok w ∧
        Instruction.decode w = ⟨kind, rd, rs1, rs2, 0⟩) ∧
    (∀ (op : String) (f3 : Nat) (kind : Opcode), (op, f3, kind) ∈
        [("addi", 0, Opcode.Addi), ("andi", 7, Opcode.Andi),
         ("ori", 6, Opcode.Ori), ("xori", 4, Opcode.Xori)] →
      ∀ (a0 a1 a2 : String) (rest : List String) (rd rs1 imm : Nat),
      parse_reg a0 = Except.ok rd → rd < 32 →
      parse_reg a1 = Except.ok rs1 → rs1 < 32 →
      parse_imm a2 = Except.ok imm →
      (imm < 2048 ∨ (imm < 2^32 ∧ imm ≥ 2^32 - 2048)) →
      ∃ w, assemble_itype op (a0 :: a1 :: a2 :: rest) = Except.ok w ∧
        Instruction.decode w = ⟨kind, rd, rs1, 0,
          if imm < 2048 then (imm : Int) else (imm : Int) - 2^32⟩) ∧
    (∀ (op : String) (f3 : Nat) (kind : Opcode), (op, f3, kind) ∈
        [("slli", 1, Opcode.Slli), ("srli", 5, Opcode.Srli)] →
      ∀ (a0 a1 a2 : String) (rest : List String) (rd rs1 imm : Nat),
      parse_reg a0 = Except.ok rd → rd < 32 →
      parse_reg a1 = Except.ok rs1 → rs1 < 32 →
      parse_imm a2 = Except.ok imm → imm < 32 →
      ∃ w, assemble_itype op (a0 :: a1 :: a2 :: rest) = Except.ok w ∧
        Instruction.decode w = ⟨kind, rd, rs1, 0, (imm : Int)⟩) ∧
    (∀ (a0 a1 a2 : String) (rest : List String) (rd rs1 imm : Nat),
      parse_reg a0 = Except.ok rd → rd < 32 →
      parse_reg a1 = Except.ok rs1 → rs1 < 32 →
      parse_imm a2 = Except.ok imm → imm < 32 →
      ∃ w, assemble_itype "srai" (a0 :: a1 :: a2 :: rest) = Except.ok w ∧
        Instruction.decode w = ⟨Opcode.Srai, rd, rs1, 0, (imm : Int) + 1024⟩ ∧
        ((imm : Int) + 1024) % 32 = (imm : Int) % 32) ∧
    (∀ (a0 a1 : String) (rest : List String) (rd rs1 imm : Nat),
      parse_reg a0 = Except.ok rd → rd < 32 →
      parse_mem_operand a1 = Except.ok (imm, rs1) → rs1 < 32 →
      (imm < 2048 ∨ (imm < 2^32 ∧ imm ≥ 2^32 - 2048)) →
      ∃ w, assemble_load (a0 :: a1 :: rest) = Except.ok w ∧
        Instruction.decode w = ⟨Opcode.Lw, rd, rs1, 0,
          if imm < 2048 then (imm : Int) else (imm : Int) - 2^32⟩) ∧
    (∀ (a0 a1 : String) (rest : List String) (rs2 rs1 imm : Nat),
      parse_reg a0 = Except.ok rs2 → rs2 < 32 →
      parse_mem_operand a1 = Except.ok (imm, rs1) → rs1 < 32 →
      (imm < 2048 ∨ (imm < 2^32 ∧ imm ≥ 2^32 - 2048)) →
      ∃ w, assemble_store (a0 :: a1 :: rest) = Except.ok w ∧
        Instruction.decode w = ⟨Opcode.Sw, 0, rs1, rs2,
          if imm < 2048 then (imm : Int) else (imm : Int) - 2^32⟩) ∧
    (∀ (op : String) (f3 : Nat) (kind : Opcode), (op, f3, kind) ∈
        [("beq", 0, Opcode.Beq), ("bne", 1, Opcode.Bne),
         ("blt", 4, Opcode.Blt), ("bge", 5, Opcode.Bge)] →
      ∀ (labels : String → Option Nat) (a0 a1 a2 : String) (rest : List String)
        (pcv rs1 rs2 target : Nat),
      parse_reg a0 = Except.ok rs1 → rs1 < 32 →
      parse_reg a1 = Except.ok rs2 → rs2 < 32 →
      (labels a2 = some target ∨ (labels a2 = none ∧ parse_imm a2 = Except.ok target)) →
      wsub target pcv % 2 = 0 →
      (wsub target pcv < 4096 ∨ wsub target pcv ≥ 2^32 - 4096) →
      ∃ w, assemble_branch labels op (a0 :: a1 :: a2 :: rest) pcv = Except.ok w ∧
        Instruction.decode w = ⟨kind, 0, rs1, rs2,
          if wsub target pcv < 4096 then (wsub target pcv : Int)
          else (wsub target pcv : Int) - 2^32⟩) ∧
    (∀ (a0 a1 : String) (rest : List String) (rd v : Nat),
      parse_reg a0 = Except.ok rd → rd < 32 →
      parse_imm a1 = Except.ok v → v < 1048576 →
      ∃ w, assemble_lui (a0 :: a1 :: rest) = some (Except.ok w) ∧
        Instruction.decode w = ⟨Opcode.Lui, rd, 0, 0, toI32 (v * 4096)⟩) ∧
    (∀ (a0 a1 : String) (rest : List String) (rd v : Nat),
      parse_reg a0 = Except.ok rd → rd < 32 →
      parse_imm a1 = Except.ok v → v < 1048576 →
      ∃ w, assemble_auipc (a0 :: a1 :: rest) = Except.ok w ∧
        Instruction.decode w = ⟨Opcode.Auipc, rd, 0, 0, toI32 (v * 4096)⟩) ∧
    (∀ (labels : String → Option Nat) (a0 a1 : String) (rest : List String)
      (pcv rd target : Nat),
      parse_reg a0 = Except.ok rd → rd < 32 →
      (labels a1 = some target ∨ (labels a1 = none ∧ parse_imm a1 = Except.ok target)) →
      wsub target pcv % 2 = 0 →
      (wsub target pcv < 2^20 ∨ wsub target pcv ≥ 2^32 - 2^20) →
      ∃ w, assemble_jal labels (a0 :: a1 :: rest) pcv = Except.ok w ∧
        Instruction.decode w = ⟨Opcode.Jal, rd, 0, 0,
          if wsub target pcv < 2^20 then (wsub target pcv : Int)
          else (wsub target pcv : Int) - 2^32⟩) ∧
    (∀ (a0 a1 : String) (rest : List String) (rd rs1 imm : Nat),
      parse_reg a0 = Except.ok rd → rd < 32 →
      parse_mem_operand a1 = Except.ok (imm, rs1) → rs1 < 32 →
      (imm < 2048 ∨ (imm < 2^32 ∧ imm ≥ 2^32 - 2048)) →
      ∃ w, assemble_jalr (a0 :: a1 :: rest) = Except.ok w ∧
        Instruction.decode w = ⟨Opcode.Jalr, rd, rs1, 0,
          if imm < 2048 then (imm : Int) else (imm : Int) - 2^32⟩) :=
  ⟨rt_rtype, rt_itype_arith, rt_shift, rt_srai, rt_load, rt_store, rt_branch,
    rt_lui, rt_auipc, rt_jal, rt_jalr⟩

theorem claim_C1_witness :
    ∃ w, assemble_rtype "add" ["x1,", "x2,", "x3"] = Except.ok w ∧
      Instruction.decode w = ⟨Opcode.Add, 1, 2, 3, 0⟩ :=
  claim_C1.1 "add" Opcode.Add (by decide) "x1," "x2," "x3" [] 1 2 3
    (by decide) (by decide) (by decide) (by decide) (by decide) (by decide)

theorem claim_C4_witness :
    parse_reg "x0," = Except.ok 0 ∧ parse_imm "8192" = Except.ok 8192 ∧
    (∃ w, assemble_branch (fun _ => none) "beq" ["x0,", "x0,", "8192"] 0
      = Except.ok w) :=
  ⟨by decide, by decide,
    claim_C4.1 (fun _ => none) "beq" "x0," "x0," "8192" [] 0 0 0 8192
      (Or.inl rfl) (by decide) (by decide) (Or.inr ⟨rfl, by decide⟩)⟩

end RV32
